import Mathlib

/-!
EEPROM device-tree parsing (`cam_eeprom_soc.c`).

A shallow embedding of the four routines of `cam_eeprom_soc.c`:

* `cam_eeprom_parse_dt_memory_map` : the memory-map parser,
* `cam_eeprom_get_dt_data`         : the common tail of both probes,
* `cam_eeprom_cmm_dts`             : the manufacturing-metadata parser,
* `cam_eeprom_spi_driver_soc_init`, `cam_eeprom_platform_driver_soc_init` : the two probe entries.

Everything the file calls but does not define (the `of_property_read_*` readers, `kzalloc`,
the three delegated loaders) is an input of the embedding: a device node is the table of the
outcomes of its reads, the allocator is the table of its outcomes, and the loaders are functions
on the state they are handed.  Every routine also returns the list of the external calls it made,
in order, so that "is not read" and "is not invoked" are statements about that list.
-/

namespace CamEeprom

/-! ## Kernel interface -/

/-- A failed kernel call returns a negative code. -/
abbrev Errno := {rc : Int // rc < 0}

/-- Value of the errno constant `EINVAL` (errno-base.h). -/
def EINVAL : Int := 22

/-- Value of the errno constant `ENOMEM` (errno-base.h). -/
def ENOMEM : Int := 12

/-- Truncation of a value to a `uint32_t` object. -/
def u32 (v : Nat) : Nat := v % 2 ^ 32

/-- A device-tree node, given by the outcome of each read the kernel offers on it.
`read_u32_array name sz` is `of_property_read_u32_array(node, name, out, sz)`: either the cells
copied to `out` (the kernel copies exactly `sz` of them) or the negative code, in which case
`out` is not written.  `read_bool` is `of_property_read_bool`, `read_string` is
`of_property_read_string`.  A null node is the node all of whose reads fail. -/
structure device_node where
  read_u32_array : String → Nat → Except Errno (List Nat)
  read_bool : String → Bool
  read_string : String → Except Errno String

/-- The external calls a routine makes, recorded in order. -/
inductive Event where
  | of_property_read_u32 (name : String)
  | of_property_read_u32_array (name : String) (sz : Nat)
  | of_property_read_bool (name : String)
  | of_property_read_string (name : String)
  | kzalloc_map (num_map : Nat)
  | kzalloc_mapdata (num_data : Nat)
  | kfree_map
  | cam_soc_util_get_dt_properties
  | cam_get_dt_power_setting_data
  | cam_sensor_util_init_gpio_pin_tbl
  deriving DecidableEq

/-- The inline wrapper `of_property_read_u32`: a one-cell array read. -/
def of_property_read_u32 (node : device_node) (name : String) : Except Errno Nat :=
  match node.read_u32_array name 1 with
  | .ok cells => .ok (u32 (cells.getD 0 0))
  | .error e => .error e

/-- The two `kzalloc` calls of the memory-map parser: whether the allocation of a block
sequence of `num_map` entries, and of a data buffer of `num_data` bytes, succeeds. -/
structure Allocator where
  kzalloc_map : Nat → Bool
  kzalloc_mapdata : Nat → Bool

/-! ## Data model of the memory map -/

/-- Modelled from the spec: `struct cam_eeprom_map_t` is declared in a header that is not among
the sources.  Section 3 gives a register operation as (address, address width, value, value
width, delay), extended by the valid size the parser sums; the words are taken in the order of
the device-tree tuple, valid size first. -/
structure cam_eeprom_map_t where
  valid_size : Nat
  addr : Nat
  addr_type : Nat
  data : Nat
  data_type : Nat
  delay : Nat
  deriving DecidableEq

/-- A register operation as `kzalloc` leaves it. -/
def cam_eeprom_map_t.zero : cam_eeprom_map_t := ⟨0, 0, 0, 0, 0, 0⟩

/-- Modelled from the spec: `struct cam_eeprom_memory_map_t` (same absent header), one block of
the map: the operations `page`, `pageen`, `poll`, `mem` and the slave address `saddr`, laid out
in this order, six words for each operation and one for `saddr`: 25 words. -/
structure cam_eeprom_memory_map_t where
  page : cam_eeprom_map_t
  pageen : cam_eeprom_map_t
  poll : cam_eeprom_map_t
  mem : cam_eeprom_map_t
  saddr : Nat
  deriving DecidableEq

/-- A block as `kzalloc` leaves it. -/
def cam_eeprom_memory_map_t.zero : cam_eeprom_memory_map_t :=
  ⟨.zero, .zero, .zero, .zero, 0⟩

/-- Word `j` of a block after `of_property_read_u32_array(.., (uint32_t *)&member, sz)` copied
`cells` to the member that starts at word `off` of the block: cell `j - off` when
`off ≤ j < off + sz`, the old word otherwise.  The copy does not stop at the end of the
member. -/
def word_after (sz off j : Nat) (cells : List Nat) (old : Nat) : Nat :=
  if off ≤ j ∧ j < off + sz then u32 (cells.getD (j - off) 0) else old

/-- The block after the copy of `sz` cells to the member at word `off`; `page` starts at word
0, `pageen` at 6, `poll` at 12, `mem` at 18, `saddr` is word 24.  A copy longer than its member
runs into the members that follow.  Cells that fall past word 24 are not words of this block:
they land in later blocks, at words the `page` read of the later pass writes again before
anything reads them, or past the end of the allocation. -/
def cam_eeprom_memory_map_t.copy (sz off : Nat) (cells : List Nat)
    (m : cam_eeprom_memory_map_t) : cam_eeprom_memory_map_t :=
  {
    page :=
      ⟨word_after sz off 0 cells m.page.valid_size,
        word_after sz off 1 cells m.page.addr,
        word_after sz off 2 cells m.page.addr_type,
        word_after sz off 3 cells m.page.data,
        word_after sz off 4 cells m.page.data_type,
        word_after sz off 5 cells m.page.delay⟩
    pageen :=
      ⟨word_after sz off 6 cells m.pageen.valid_size,
        word_after sz off 7 cells m.pageen.addr,
        word_after sz off 8 cells m.pageen.addr_type,
        word_after sz off 9 cells m.pageen.data,
        word_after sz off 10 cells m.pageen.data_type,
        word_after sz off 11 cells m.pageen.delay⟩
    poll :=
      ⟨word_after sz off 12 cells m.poll.valid_size,
        word_after sz off 13 cells m.poll.addr,
        word_after sz off 14 cells m.poll.addr_type,
        word_after sz off 15 cells m.poll.data,
        word_after sz off 16 cells m.poll.data_type,
        word_after sz off 17 cells m.poll.delay⟩
    mem :=
      ⟨word_after sz off 18 cells m.mem.valid_size,
        word_after sz off 19 cells m.mem.addr,
        word_after sz off 20 cells m.mem.addr_type,
        word_after sz off 21 cells m.mem.data,
        word_after sz off 22 cells m.mem.data_type,
        word_after sz off 23 cells m.mem.delay⟩
    saddr := word_after sz off 24 cells m.saddr }

/-- Modelled from the spec: `struct cam_eeprom_memory_block_t` (same absent header), the output
record of the parser.  A null `map` or `mapdata` pointer is `none`; `mapdata` is the byte buffer. -/
structure cam_eeprom_memory_block_t where
  map : Option (List cam_eeprom_memory_map_t)
  num_map : Nat
  mapdata : Option (List Nat)
  num_data : Nat
  deriving DecidableEq

/-- The output record after `memset(data, 0, sizeof(*data))`. -/
def cam_eeprom_memory_block_t.zero : cam_eeprom_memory_block_t := ⟨none, 0, none, 0⟩

/-! ## `cam_eeprom_parse_dt_memory_map` -/

/-- The property name built by `snprintf(property, PROPERTY_MAXSIZE, "<stem>%d", i)`. -/
def property (stem : String) (i : Nat) : String := stem ++ toString i

/-- One pass of the loop body (source lines 56-93) on slot `i` of the freshly zeroed block
sequence: the reads made, and either the filled slot or the code carried to `ERROR`.
`count` is `MSM_EEPROM_MEM_MAP_PROPERTIES_CNT`, a constant of the absent header; each read
copies its cells to the address of its member, whatever the size of the member. -/
def loop_body (count : Nat) (node : device_node) (i : Nat) :
    List Event × Except Errno cam_eeprom_memory_map_t :=
  let m := cam_eeprom_memory_map_t.zero
  let e_page := Event.of_property_read_u32_array (property "page" i) count
  let e_pageen := Event.of_property_read_u32_array (property "pageen" i) count
  let e_saddr := Event.of_property_read_u32_array (property "saddr" i) 1
  let e_poll := Event.of_property_read_u32_array (property "poll" i) count
  let e_mem := Event.of_property_read_u32_array (property "mem" i) count
  match node.read_u32_array (property "page" i) count with
  | .error e => ([e_page], .error e)
  | .ok c_page =>
    let m := m.copy count 0 c_page
    let m := match node.read_u32_array (property "pageen" i) count with
      | .error _ => m
      | .ok c => m.copy count 6 c
    let m := match node.read_u32_array (property "saddr" i) 1 with
      | .error _ => m
      | .ok c => m.copy 1 24 c
    match node.read_u32_array (property "poll" i) count with
    | .error e => ([e_page, e_pageen, e_saddr, e_poll], .error e)
    | .ok c_poll =>
      let m := m.copy count 12 c_poll
      match node.read_u32_array (property "mem" i) count with
      | .error e => ([e_page, e_pageen, e_saddr, e_poll, e_mem], .error e)
      | .ok c_mem =>
        ([e_page, e_pageen, e_saddr, e_poll, e_mem], .ok (m.copy count 18 c_mem))

/-- How the block loop ends: at `ERROR` with a code, or past its last pass with the filled
slots and the running `num_data`. -/
inductive LoopEnd where
  | error (rc : Int) (trace : List Event)
  | done (slots : List cam_eeprom_memory_map_t) (num_data : Nat) (trace : List Event)
  deriving DecidableEq

/-- The loop `for (i = 0; i < data->num_map; i++)` with `n` passes left, at index `i`, with
`data->num_data` currently `num_data`.  The slots are produced in index order; `num_data` is a
`uint32_t`, so the sum wraps. -/
def block_loop (count : Nat) (node : device_node) : Nat → Nat → Nat → LoopEnd
  | 0, _, num_data => .done [] num_data []
  | n + 1, i, num_data =>
    match loop_body count node i with
    | (tr, .error e) => .error e.val tr
    | (tr, .ok m) =>
      match block_loop count node n (i + 1) (u32 (num_data + m.mem.valid_size)) with
      | .error rc tr2 => .error rc (tr ++ tr2)
      | .done slots nd tr2 => .done (m :: slots) nd (tr ++ tr2)

/-- What a routine of the parser returns: the code, the output record, the calls made. -/
structure ParseResult where
  rc : Int
  data : cam_eeprom_memory_block_t
  trace : List Event
  deriving DecidableEq

/-- The routine `cam_eeprom_parse_dt_memory_map(node, data)` (source lines 32-108). -/
def cam_eeprom_parse_dt_memory_map (count : Nat) (A : Allocator) (node : device_node)
    (data : cam_eeprom_memory_block_t) : ParseResult :=
  let e_num := Event.of_property_read_u32 "num-blocks"
  match of_property_read_u32 node "num-blocks" with
  | .error e => ⟨e.val, data, [e_num]⟩
  | .ok n =>
    let data := { data with num_map := n }
    if A.kzalloc_map data.num_map = false then
      ⟨-ENOMEM, data, [e_num, .kzalloc_map data.num_map]⟩
    else
      match block_loop count node data.num_map 0 data.num_data with
      | .error rc tr =>
        ⟨rc, .zero, [e_num, .kzalloc_map data.num_map] ++ tr ++ [.kfree_map]⟩
      | .done slots nd tr =>
        let data := { data with map := some slots, num_data := nd }
        if A.kzalloc_mapdata data.num_data = false then
          ⟨-ENOMEM, .zero,
            [e_num, .kzalloc_map data.num_map] ++ tr ++
              [.kzalloc_mapdata data.num_data, .kfree_map]⟩
        else
          ⟨0, { data with mapdata := some (List.replicate data.num_data 0) },
            [e_num, .kzalloc_map data.num_map] ++ tr ++ [.kzalloc_mapdata data.num_data]⟩

/-! ## Probe context -/

/-- Code returned by a read: `0` when it succeeded. -/
def rc_of {α : Type} : Except Errno α → Int
  | .ok _ => 0
  | .error e => e.val

/-- The reads of a null node pointer: the kernel finds no property in it. -/
def null_node : device_node :=
  { read_u32_array := fun _ _ => .error ⟨-EINVAL, by decide⟩
    read_bool := fun _ => false
    read_string := fun _ => .error ⟨-EINVAL, by decide⟩ }

/-- The node a possibly null node pointer is read as. -/
def node_of : Option device_node → device_node
  | some n => n
  | none => null_node

/-- Modelled from the spec: `enum msm_camera_device_type_t` is declared in a header that is not
among the sources; section 3 gives the access modes, the source names two of the enumerators. -/
inductive msm_camera_device_type_t where
  | MSM_CAMERA_I2C_DEVICE
  | MSM_CAMERA_PLATFORM_DEVICE
  | MSM_CAMERA_SPI_DEVICE
  deriving DecidableEq

/-- The part of `struct platform_device` the file reads: `pdev->dev.of_node`. -/
structure platform_device where
  of_node : Option device_node

/-- The part of the GPIO data the file reads: `cam_gpio_common_tbl_size`. -/
structure cam_soc_gpio_data where
  cam_gpio_common_tbl_size : Nat
  deriving DecidableEq

/-- The part of `struct cam_hw_soc_info` the file reads: the platform device and the GPIO data
handle, both possibly null.  The private data it points to is `cam_eeprom_soc_private` below. -/
structure cam_hw_soc_info where
  pdev : Option platform_device
  gpio_data : Option cam_soc_gpio_data

/-- The part of `struct cam_sensor_power_ctrl_t` the file touches: the GPIO pin table handle
(possibly null); `power_setting` stands for what the power-sequence loader fills in. -/
structure cam_sensor_power_ctrl_t where
  power_setting : List Nat
  gpio_num_info : Option Nat
  deriving DecidableEq

/-- Modelled from the spec: `struct cam_eeprom_cmm_t` (absent header), the manufacturing
metadata of section 3: supported, compressed, offset, size. -/
structure cam_eeprom_cmm_t where
  cmm_support : Bool
  cmm_compression : Bool
  cmm_offset : Nat
  cmm_size : Nat
  deriving DecidableEq

/-- Modelled from the spec: `struct cam_eeprom_i2c_info_t` (absent header), the addressing of
section 3; both fields are taken as unsigned integers that hold the word read unchanged. -/
structure cam_eeprom_i2c_info_t where
  slave_addr : Nat
  i2c_freq_mode : Nat
  deriving DecidableEq

/-- Modelled from the spec: `struct cam_eeprom_soc_private` (absent header): device name
(a null string pointer is `none`), addressing, power configuration, manufacturing metadata. -/
structure cam_eeprom_soc_private where
  eeprom_name : Option String
  i2c_info : cam_eeprom_i2c_info_t
  power_info : cam_sensor_power_ctrl_t
  cmm_data : cam_eeprom_cmm_t
  deriving DecidableEq

/-- Modelled from the spec: `struct cam_eeprom_ctrl_t` (absent header), the probe context of
section 3.  `soc_private` is the object `soc_info.soc_private` points to; `spi_of_node` is
`e_ctrl->spi->dev.of_node`, which the source reads without a null test; `spi_master_of_node` is
`e_ctrl->io_master_info.spi_client->spi_master->dev.of_node`. -/
structure cam_eeprom_ctrl_t where
  soc_info : cam_hw_soc_info
  soc_private : cam_eeprom_soc_private
  eeprom_device_type : msm_camera_device_type_t
  spi_of_node : device_node
  spi_master_of_node : Option device_node
  userspace_probe : Bool
  subdev_id : Nat
  cci_i2c_master : Nat

/-- The three delegated loaders, each a function of the objects it is handed, returning its code
and those objects as it leaves them. -/
structure Loaders where
  cam_soc_util_get_dt_properties : cam_hw_soc_info → Int × cam_hw_soc_info
  cam_get_dt_power_setting_data : device_node → cam_hw_soc_info → cam_sensor_power_ctrl_t →
    Int × cam_hw_soc_info × cam_sensor_power_ctrl_t
  cam_sensor_util_init_gpio_pin_tbl : cam_hw_soc_info → Option Nat →
    Int × cam_hw_soc_info × Option Nat

/-- What a probe routine returns: the code, the context, the calls made. -/
structure ProbeResult where
  rc : Int
  e_ctrl : cam_eeprom_ctrl_t
  trace : List Event

/-! ## `cam_eeprom_get_dt_data` -/

/-- Source lines 151-168 of `cam_eeprom_get_dt_data`: the GPIO table. -/
def get_dt_data_gpio (L : Loaders) (e_ctrl : cam_eeprom_ctrl_t) (trace : List Event) :
    ProbeResult :=
  match e_ctrl.soc_info.gpio_data with
  | none => ⟨0, e_ctrl, trace⟩
  | some gpio_data =>
    if gpio_data.cam_gpio_common_tbl_size = 0 then
      ⟨-EINVAL, e_ctrl, trace⟩
    else
      let r := L.cam_sensor_util_init_gpio_pin_tbl e_ctrl.soc_info
        e_ctrl.soc_private.power_info.gpio_num_info
      let e_ctrl := { e_ctrl with
        soc_info := r.2.1
        soc_private := { e_ctrl.soc_private with
          power_info := { e_ctrl.soc_private.power_info with gpio_num_info := r.2.2 } } }
      if r.1 < 0 ∨ e_ctrl.soc_private.power_info.gpio_num_info = none then
        ⟨-EINVAL, e_ctrl, trace ++ [.cam_sensor_util_init_gpio_pin_tbl]⟩
      else
        ⟨r.1, e_ctrl, trace ++ [.cam_sensor_util_init_gpio_pin_tbl]⟩

/-- Source lines 135-149 of `cam_eeprom_get_dt_data`, for a node `of_node` that is not null:
the generic loader, then the power-sequence loader unless the probe is left to user space,
then the GPIO table. -/
def get_dt_data_loaders (L : Loaders) (e_ctrl : cam_eeprom_ctrl_t) (of_node : device_node) :
    ProbeResult :=
  let r := L.cam_soc_util_get_dt_properties e_ctrl.soc_info
  let e_ctrl := { e_ctrl with soc_info := r.2 }
  if r.1 < 0 then
    ⟨r.1, e_ctrl, [.cam_soc_util_get_dt_properties]⟩
  else if e_ctrl.userspace_probe = false then
    let p := L.cam_get_dt_power_setting_data of_node e_ctrl.soc_info
      e_ctrl.soc_private.power_info
    let e_ctrl := { e_ctrl with
      soc_info := p.2.1
      soc_private := { e_ctrl.soc_private with power_info := p.2.2 } }
    if p.1 < 0 then
      ⟨p.1, e_ctrl, [.cam_soc_util_get_dt_properties, .cam_get_dt_power_setting_data]⟩
    else
      get_dt_data_gpio L e_ctrl
        [.cam_soc_util_get_dt_properties, .cam_get_dt_power_setting_data]
  else
    get_dt_data_gpio L e_ctrl [.cam_soc_util_get_dt_properties]

/-- Source lines 122-128 of `cam_eeprom_get_dt_data`: the node the device type selects.  The
outer `none` is the dereference of a null `soc_info->pdev`. -/
def get_dt_data_of_node (e_ctrl : cam_eeprom_ctrl_t) : Option (Option device_node) :=
  match e_ctrl.eeprom_device_type with
  | .MSM_CAMERA_SPI_DEVICE => some e_ctrl.spi_master_of_node
  | .MSM_CAMERA_PLATFORM_DEVICE =>
    match e_ctrl.soc_info.pdev with
    | some pdev => some pdev.of_node
    | none => none
  | .MSM_CAMERA_I2C_DEVICE => some none

/-- The routine `cam_eeprom_get_dt_data(e_ctrl)` (source lines 115-169).  The result is `none`
when the routine dereferences a null `soc_info->pdev`. -/
def cam_eeprom_get_dt_data (L : Loaders) (e_ctrl : cam_eeprom_ctrl_t) : Option ProbeResult :=
  match get_dt_data_of_node e_ctrl with
  | none => none
  | some none => some ⟨-EINVAL, e_ctrl, []⟩
  | some (some of_node) => some (get_dt_data_loaders L e_ctrl of_node)

/-! ## `cam_eeprom_cmm_dts` -/

/-- What `cam_eeprom_cmm_dts` returns: the code, the private data, the calls made. -/
structure CmmResult where
  rc : Int
  eb_info : cam_eeprom_soc_private
  trace : List Event
  deriving DecidableEq

/-- The routine `cam_eeprom_cmm_dts(eb_info, of_node)` (source lines 177-207). -/
def cam_eeprom_cmm_dts (eb_info : cam_eeprom_soc_private) (of_node : device_node) :
    CmmResult :=
  let cmm_data := { eb_info.cmm_data with
    cmm_support := of_node.read_bool "cmm-data-support" }
  if cmm_data.cmm_support = false then
    ⟨0, { eb_info with cmm_data := cmm_data }, [.of_property_read_bool "cmm-data-support"]⟩
  else
    let cmm_data := { cmm_data with
      cmm_compression := of_node.read_bool "cmm-data-compressed" }
    let cmm_data := match of_property_read_u32 of_node "cmm-data-offset" with
      | .ok v => { cmm_data with cmm_offset := v }
      | .error _ => cmm_data
    let cmm_data := match of_property_read_u32 of_node "cmm-data-size" with
      | .ok v => { cmm_data with cmm_size := v }
      | .error _ => cmm_data
    ⟨0, { eb_info with cmm_data := cmm_data },
      [.of_property_read_bool "cmm-data-support", .of_property_read_bool "cmm-data-compressed",
        .of_property_read_u32 "cmm-data-offset", .of_property_read_u32 "cmm-data-size"]⟩

/-! ## The two probe entries -/

/-- The routine `cam_eeprom_spi_driver_soc_init(e_ctrl)` (source lines 215-245). -/
def cam_eeprom_spi_driver_soc_init (L : Loaders) (e_ctrl : cam_eeprom_ctrl_t) :
    Option ProbeResult :=
  match of_property_read_u32 e_ctrl.spi_of_node "cell-index" with
  | .error e => some ⟨e.val, e_ctrl, [.of_property_read_u32 "cell-index"]⟩
  | .ok v =>
    let e_ctrl := { e_ctrl with subdev_id := v }
    let e_ctrl := match e_ctrl.spi_of_node.read_string "eeprom-name" with
      | .ok s => { e_ctrl with soc_private := { e_ctrl.soc_private with eeprom_name := some s } }
      | .error _ => { e_ctrl with userspace_probe := true }
    let c := cam_eeprom_cmm_dts e_ctrl.soc_private (node_of e_ctrl.spi_master_of_node)
    let e_ctrl := { e_ctrl with soc_private := c.eb_info }
    match cam_eeprom_get_dt_data L e_ctrl with
    | none => none
    | some r =>
      some ⟨r.rc, r.e_ctrl,
        [.of_property_read_u32 "cell-index", .of_property_read_string "eeprom-name"] ++
          c.trace ++ r.trace⟩

/-- Source lines 300-322 of `cam_eeprom_platform_driver_soc_init`: the addressing step and the
final `return rc`.  `rc` is the code the common tail left, `temp` the content of the local
`uint32_t temp`, which the source declares without an initialiser. -/
def soc_init_addressing (I2C_MAX_MODES : Nat) (of_node : device_node) (temp : Nat) (rc : Int)
    (e_ctrl : cam_eeprom_ctrl_t) (trace : List Event) : ProbeResult :=
  if e_ctrl.userspace_probe = false then
    let r_slave := of_property_read_u32 of_node "slave-addr"
    let temp := match r_slave with
      | .ok v => v
      | .error _ => temp
    let slave_addr := temp
    let r_freq := of_property_read_u32 of_node "i2c-freq-mode"
    let temp := match r_freq with
      | .ok v => v
      | .error _ => temp
    let rc := rc_of r_freq
    let i2c_freq_mode := temp
    let i2c_freq_mode := if rc < 0 then 0 else i2c_freq_mode
    let i2c_freq_mode := if i2c_freq_mode ≥ I2C_MAX_MODES then 0 else i2c_freq_mode
    ⟨rc,
      { e_ctrl with soc_private := { e_ctrl.soc_private with
          i2c_info := { slave_addr := slave_addr, i2c_freq_mode := i2c_freq_mode } } },
      trace ++ [.of_property_read_u32 "slave-addr", .of_property_read_u32 "i2c-freq-mode"]⟩
  else
    ⟨rc, e_ctrl, trace⟩

/-- The routine `cam_eeprom_platform_driver_soc_init(e_ctrl)` (source lines 253-323).
`I2C_MAX_MODES` is the bound of `enum i2c_freq_mode_t`, a constant of an absent header;
`temp` is the indeterminate initial content of the local `temp`. -/
def cam_eeprom_platform_driver_soc_init (I2C_MAX_MODES : Nat) (L : Loaders) (temp : Nat)
    (e_ctrl : cam_eeprom_ctrl_t) : Option ProbeResult :=
  match e_ctrl.soc_info.pdev with
  | none => some ⟨-EINVAL, e_ctrl, []⟩
  | some pdev =>
    match pdev.of_node with
    | none => some ⟨-EINVAL, e_ctrl, []⟩
    | some of_node =>
      match of_property_read_u32 of_node "cell-index" with
      | .error e => some ⟨e.val, e_ctrl, [.of_property_read_u32 "cell-index"]⟩
      | .ok v =>
        let e_ctrl := { e_ctrl with subdev_id := v }
        match of_property_read_u32 of_node "cci-master" with
        | .error e =>
          some ⟨e.val, e_ctrl,
            [.of_property_read_u32 "cell-index", .of_property_read_u32 "cci-master"]⟩
        | .ok v =>
          let e_ctrl := { e_ctrl with cci_i2c_master := v }
          let e_ctrl := match of_node.read_string "eeprom-name" with
            | .ok s =>
              { e_ctrl with soc_private := { e_ctrl.soc_private with eeprom_name := some s } }
            | .error _ => { e_ctrl with userspace_probe := true }
          match cam_eeprom_get_dt_data L e_ctrl with
          | none => none
          | some r =>
            some (soc_init_addressing I2C_MAX_MODES of_node temp r.rc r.e_ctrl
              ([.of_property_read_u32 "cell-index", .of_property_read_u32 "cci-master",
                .of_property_read_string "eeprom-name"] ++ r.trace))

/-! ## Vocabulary of the statements -/

/-- A property that `of_property_read_u32_array` can read with `sz` cells. -/
def readable (node : device_node) (name : String) (sz : Nat) : Bool :=
  match node.read_u32_array name sz with
  | .ok _ => true
  | .error _ => false

/-- The code of the first of the reads `page{i}`, `poll{i}`, `mem{i}` that fails, in the order
the loop body makes them; `none` when the three are readable. -/
def first_failing_read (count : Nat) (node : device_node) (i : Nat) : Option Errno :=
  match node.read_u32_array (property "page" i) count with
  | .error e => some e
  | .ok _ =>
    match node.read_u32_array (property "poll" i) count with
    | .error e => some e
    | .ok _ =>
      match node.read_u32_array (property "mem" i) count with
      | .error e => some e
      | .ok _ => none

/-- The slot the loop body leaves at index `i` (the zero slot when it goes to `ERROR`). -/
def slot_at (count : Nat) (node : device_node) (i : Nat) : cam_eeprom_memory_map_t :=
  match (loop_body count node i).2 with
  | .ok m => m
  | .error _ => .zero

/-- Sum of the valid sizes of the `mem` operations of a block sequence. -/
def total_valid_size (slots : List cam_eeprom_memory_map_t) : Nat :=
  (slots.map fun m => m.mem.valid_size).sum

/-- The running `num_data` after the passes that filled `slots`, from the value `nd`. -/
def accumulate (nd : Nat) (slots : List cam_eeprom_memory_map_t) : Nat :=
  slots.foldl (fun a m => u32 (a + m.mem.valid_size)) nd

/-- An allocator that never fails. -/
def alloc_ok : Allocator := ⟨fun _ => true, fun _ => true⟩

/-- The code `-EINVAL`, which the kernel returns for a property that is not there. -/
def einval : Errno := ⟨-EINVAL, by decide⟩

/-- The code `-EOVERFLOW`, which the kernel returns for a property with too few cells. -/
def eoverflow : Errno := ⟨-75, by decide⟩

/-- The node that holds the listed properties: integer arrays `cells`, flags `flags`, strings
`strings`.  A read of `sz` cells yields the first `sz` cells of the property. -/
def node_of_properties (cells : List (String × List Nat)) (flags : List String)
    (strings : List (String × String)) : device_node :=
  { read_u32_array := fun name sz =>
      match cells.lookup name with
      | none => .error einval
      | some c => if sz ≤ c.length then .ok (c.take sz) else .error eoverflow
    read_bool := fun name => flags.contains name
    read_string := fun name =>
      match strings.lookup name with
      | none => .error einval
      | some s => .ok s }

/-- Two blocks whose `mem` operations each carry a valid size of `2 ^ 31`. -/
def node_wrap : device_node :=
  node_of_properties
    [("num-blocks", [2]),
      ("page0", [0, 0, 2, 1, 1, 1]), ("poll0", [0, 0, 2, 0, 1, 1]),
      ("mem0", [2147483648, 0, 2, 0, 1, 0]),
      ("page1", [0, 1, 2, 1, 1, 1]), ("poll1", [0, 0, 2, 0, 1, 1]),
      ("mem1", [2147483648, 0, 2, 0, 1, 0])] [] []

/-- Two complete blocks of 64 and 32 bytes, with `pageen` and `saddr` in both. -/
def node_two_blocks : device_node :=
  node_of_properties
    [("num-blocks", [2]),
      ("page0", [0, 0, 2, 1, 1, 1]), ("pageen0", [0, 16, 2, 1, 1, 5]), ("saddr0", [80]),
      ("poll0", [0, 0, 2, 0, 1, 1]), ("mem0", [64, 0, 2, 0, 1, 0]),
      ("page1", [0, 0, 2, 2, 1, 1]), ("pageen1", [0, 16, 2, 1, 1, 5]), ("saddr1", [81]),
      ("poll1", [0, 0, 2, 0, 1, 1]), ("mem1", [32, 64, 2, 0, 1, 0])] [] []

/-- The configuration `node_two_blocks` without `poll1`. -/
def node_no_poll1 : device_node :=
  node_of_properties
    [("num-blocks", [2]),
      ("page0", [0, 0, 2, 1, 1, 1]), ("pageen0", [0, 16, 2, 1, 1, 5]), ("saddr0", [80]),
      ("poll0", [0, 0, 2, 0, 1, 1]), ("mem0", [64, 0, 2, 0, 1, 0]),
      ("page1", [0, 0, 2, 2, 1, 1]), ("pageen1", [0, 16, 2, 1, 1, 5]), ("saddr1", [81]),
      ("mem1", [32, 64, 2, 0, 1, 0])] [] []

/-! ## Vocabulary and configurations of the probe statements -/

/-- The calls `cam_eeprom_get_dt_data` can make. -/
def loader_event (ev : Event) : Bool :=
  match ev with
  | .cam_soc_util_get_dt_properties => true
  | .cam_get_dt_power_setting_data => true
  | .cam_sensor_util_init_gpio_pin_tbl => true
  | _ => false

/-- Loaders that succeed and leave what they are handed as it is; the pin-table builder yields
a table. -/
def loaders_ok : Loaders :=
  { cam_soc_util_get_dt_properties := fun soc => (0, soc)
    cam_get_dt_power_setting_data := fun _ soc pw => (0, soc, pw)
    cam_sensor_util_init_gpio_pin_tbl := fun soc _ => (0, soc, some 1) }

/-- A zero-initialised probe context of a platform device with the given node and GPIO data. -/
def ctrl_platform (of_node : Option device_node) (gpio_data : Option cam_soc_gpio_data) :
    cam_eeprom_ctrl_t :=
  { soc_info := ⟨some ⟨of_node⟩, gpio_data⟩
    soc_private := ⟨none, ⟨0, 0⟩, ⟨[], none⟩, ⟨false, false, 0, 0⟩⟩
    eeprom_device_type := .MSM_CAMERA_PLATFORM_DEVICE
    spi_of_node := null_node
    spi_master_of_node := none
    userspace_probe := false
    subdev_id := 0
    cci_i2c_master := 0 }

/-- A complete platform node. -/
def node_platform : device_node :=
  node_of_properties
    [("cell-index", [2]), ("cci-master", [1]), ("slave-addr", [160]), ("i2c-freq-mode", [1])]
    [] [("eeprom-name", "eeprom0")]

/-- The node `node_platform` without `i2c-freq-mode`. -/
def node_platform_no_freq : device_node :=
  node_of_properties
    [("cell-index", [2]), ("cci-master", [1]), ("slave-addr", [160])]
    [] [("eeprom-name", "eeprom0")]

/-- The node `node_platform` without `slave-addr`. -/
def node_platform_no_slave : device_node :=
  node_of_properties
    [("cell-index", [2]), ("cci-master", [1]), ("i2c-freq-mode", [1])]
    [] [("eeprom-name", "eeprom0")]

/-- The node `node_platform` with an `i2c-freq-mode` of 7. -/
def node_platform_freq7 : device_node :=
  node_of_properties
    [("cell-index", [2]), ("cci-master", [1]), ("slave-addr", [160]), ("i2c-freq-mode", [7])]
    [] [("eeprom-name", "eeprom0")]

/-- The node `node_platform` without `eeprom-name`. -/
def node_platform_no_name : device_node :=
  node_of_properties
    [("cell-index", [2]), ("cci-master", [1]), ("slave-addr", [160]), ("i2c-freq-mode", [1])]
    [] []

/-- The code a probe returns, if it returns. -/
def rc? (r : Option ProbeResult) : Option Int := r.map fun x => x.rc

/-- The addressing a probe leaves, if it returns. -/
def i2c_info? (r : Option ProbeResult) : Option cam_eeprom_i2c_info_t :=
  r.map fun x => x.e_ctrl.soc_private.i2c_info

/-- The probe context when `cam_eeprom_platform_driver_soc_init` calls the common tail:
`cell-index` and `cci-master` stored, then the name stored or the probe left to user space. -/
def ctrl_before_tail (e_ctrl : cam_eeprom_ctrl_t) (cell_index cci_master : Nat)
    (name : Except Errno String) : cam_eeprom_ctrl_t :=
  match name with
  | .ok s =>
    { e_ctrl with
      subdev_id := cell_index
      cci_i2c_master := cci_master
      soc_private := { e_ctrl.soc_private with eeprom_name := some s } }
  | .error _ =>
    { e_ctrl with
      subdev_id := cell_index
      cci_i2c_master := cci_master
      userspace_probe := true }

/-- A node that supports manufacturing metadata and gives neither offset nor size. -/
def node_cmm_bare : device_node :=
  node_of_properties [] ["cmm-data-support", "cmm-data-compressed"] []

/-- A node with the full manufacturing metadata. -/
def node_cmm_full : device_node :=
  node_of_properties [("cmm-data-offset", [4096]), ("cmm-data-size", [512])]
    ["cmm-data-support"] []

/-- The word a `uint32_t` object holds after `of_property_read_u32` was asked to fill it. -/
def u32_after (r : Except Errno Nat) (old : Nat) : Nat :=
  match r with
  | .ok v => v
  | .error _ => old

/-! ## Further vocabulary and configurations -/

/-- An allocator that refuses the block sequence. -/
def alloc_no_map : Allocator := ⟨fun _ => false, fun _ => true⟩

/-- An allocator that grants the block sequence and refuses the data buffer. -/
def alloc_no_mapdata : Allocator := ⟨fun _ => true, fun _ => false⟩

/-- A node with every manufacturing property except `cmm-data-support`. -/
def node_cmm_unsupported : device_node :=
  node_of_properties [("cmm-data-offset", [4096]), ("cmm-data-size", [512])]
    ["cmm-data-compressed"] []

/-- A platform node without `cell-index`. -/
def node_platform_no_cell : device_node :=
  node_of_properties
    [("cci-master", [1]), ("slave-addr", [160]), ("i2c-freq-mode", [1])]
    [] [("eeprom-name", "eeprom0")]

/-- A platform node without `cci-master`. -/
def node_platform_no_cci : device_node :=
  node_of_properties
    [("cell-index", [2]), ("slave-addr", [160]), ("i2c-freq-mode", [1])]
    [] [("eeprom-name", "eeprom0")]

/-- The probe context `cam_eeprom_get_dt_data` has built when it reaches the GPIO table: the
generic loader has run, and the power-sequence loader unless the probe is left to user space. -/
def ctrl_after_loaders (L : Loaders) (e_ctrl : cam_eeprom_ctrl_t) (of_node : device_node) :
    cam_eeprom_ctrl_t :=
  let r := L.cam_soc_util_get_dt_properties e_ctrl.soc_info
  if e_ctrl.userspace_probe = false then
    let p := L.cam_get_dt_power_setting_data of_node r.2 e_ctrl.soc_private.power_info
    { e_ctrl with
      soc_info := p.2.1
      soc_private := { e_ctrl.soc_private with power_info := p.2.2 } }
  else
    { e_ctrl with soc_info := r.2 }

/-- Loaders that succeed; the pin-table builder returns the code `rc` and the table `tbl`. -/
def loaders_gpio (rc : Int) (tbl : Option Nat) : Loaders :=
  { cam_soc_util_get_dt_properties := fun soc => (0, soc)
    cam_get_dt_power_setting_data := fun _ soc pw => (0, soc, pw)
    cam_sensor_util_init_gpio_pin_tbl := fun soc _ => (rc, soc, tbl) }

/-- A zero-initialised probe context of an SPI device: `spi` is the node of the SPI device,
`master` the node of its bus master. -/
def ctrl_spi (spi : device_node) (master : Option device_node) : cam_eeprom_ctrl_t :=
  { soc_info := ⟨none, none⟩
    soc_private := ⟨none, ⟨0, 0⟩, ⟨[], none⟩, ⟨false, false, 0, 0⟩⟩
    eeprom_device_type := .MSM_CAMERA_SPI_DEVICE
    spi_of_node := spi
    spi_master_of_node := master
    userspace_probe := false
    subdev_id := 0
    cci_i2c_master := 0 }

/-- An SPI device node with `cell-index` and without `eeprom-name`. -/
def node_spi_no_name : device_node :=
  node_of_properties [("cell-index", [3])] [] []

/-- The probe context when `cam_eeprom_spi_driver_soc_init` calls the common tail: `cell-index`
stored, the name stored or the probe left to user space, the manufacturing metadata parsed from
the node of the bus master. -/
def spi_ctrl_before_tail (e_ctrl : cam_eeprom_ctrl_t) (cell_index : Nat) : cam_eeprom_ctrl_t :=
  let e1 : cam_eeprom_ctrl_t :=
    match e_ctrl.spi_of_node.read_string "eeprom-name" with
    | .ok s =>
      { e_ctrl with
        subdev_id := cell_index
        soc_private := { e_ctrl.soc_private with eeprom_name := some s } }
    | .error _ => { e_ctrl with subdev_id := cell_index, userspace_probe := true }
  { e1 with soc_private :=
      (cam_eeprom_cmm_dts e1.soc_private (node_of e_ctrl.spi_master_of_node)).eb_info }

/-- The node a platform probe reads, `soc_info->pdev->dev.of_node`, when both pointers are
set. -/
def platform_of_node (e_ctrl : cam_eeprom_ctrl_t) : Option device_node :=
  match e_ctrl.soc_info.pdev with
  | some pdev => pdev.of_node
  | none => none

/-- A complete SPI device node. -/
def node_spi : device_node :=
  node_of_properties [("cell-index", [3])] [] [("eeprom-name", "eeprom1")]

/-- One block whose array properties carry eight cells each, without `pageen0` and
`saddr0`. -/
def node_eight_cells : device_node :=
  node_of_properties
    [("num-blocks", [1]),
      ("page0", [1, 2, 3, 4, 5, 6, 7, 8]), ("poll0", [11, 12, 13, 14, 15, 16, 17, 18]),
      ("mem0", [21, 22, 23, 24, 25, 26, 27, 28])] [] []

/-! ## The memory-map parser: lemmas and theorems -/

/-- No mandatory read of block `i` fails exactly when its three properties are readable. -/
theorem first_failing_read_none_iff (count : Nat) (node : device_node) (i : Nat) :
    first_failing_read count node i = none ↔
      readable node (property "page" i) count = true ∧
        readable node (property "poll" i) count = true ∧
        readable node (property "mem" i) count = true := by
  unfold first_failing_read readable
  cases hp : node.read_u32_array (property "page" i) count <;>
  cases hq : node.read_u32_array (property "poll" i) count <;>
  cases hm : node.read_u32_array (property "mem" i) count <;> simp

/-- A pass whose first failing mandatory read has code `e` goes to `ERROR` with `e`. -/
theorem loop_body_of_failure (count : Nat) (node : device_node) (i : Nat) (e : Errno)
    (h : first_failing_read count node i = some e) :
    ∃ tr, loop_body count node i = (tr, .error e) := by
  unfold first_failing_read at h
  unfold loop_body
  cases hp : node.read_u32_array (property "page" i) count with
  | error e1 => simp [hp] at h ⊢; exact h
  | ok cp =>
    cases hq : node.read_u32_array (property "poll" i) count with
    | error e1 => simp [hp, hq] at h ⊢; exact h
    | ok cq =>
      cases hm : node.read_u32_array (property "mem" i) count with
      | error e1 => simp [hp, hq, hm] at h ⊢; exact h
      | ok cm => simp [hp, hq, hm] at h

/-- A pass on a block whose mandatory properties are readable fills its slot. -/
theorem loop_body_of_readable (count : Nat) (node : device_node) (i : Nat)
    (h : first_failing_read count node i = none) :
    ∃ tr, loop_body count node i = (tr, .ok (slot_at count node i)) := by
  unfold first_failing_read at h
  unfold slot_at loop_body
  cases hp : node.read_u32_array (property "page" i) count with
  | error e1 => simp [hp] at h
  | ok cp =>
    cases hq : node.read_u32_array (property "poll" i) count with
    | error e1 => simp [hp, hq] at h
    | ok cq =>
      cases hm : node.read_u32_array (property "mem" i) count with
      | error e1 => simp [hp, hq, hm] at h
      | ok cm => simp [hp, hq, hm]

/-- Truncating a partial sum does not change the truncated total. -/
theorem u32_add_u32 (a b : Nat) : u32 (u32 a + b) = u32 (a + b) := by
  unfold u32; omega

/-- One pass adds the valid size of its slot to the running `num_data`. -/
theorem accumulate_cons (nd : Nat) (m : cam_eeprom_memory_map_t)
    (slots : List cam_eeprom_memory_map_t) :
    accumulate nd (m :: slots) = accumulate (u32 (nd + m.mem.valid_size)) slots := rfl

/-- After at least one pass the running `num_data` is the truncated total. -/
theorem accumulate_eq (slots : List cam_eeprom_memory_map_t) :
    ∀ nd, slots ≠ [] → accumulate nd slots = u32 (nd + total_valid_size slots) := by
  induction slots with
  | nil => intro nd h; exact absurd rfl h
  | cons m rest ih =>
    intro nd _
    rw [accumulate_cons]
    by_cases hr : rest = []
    · subst hr
      simp [accumulate, total_valid_size]
    · rw [ih _ hr, u32_add_u32]
      simp [total_valid_size, Nat.add_assoc]

/-- The loop over blocks that are all readable ends past its last pass, with the slots in
index order. -/
theorem block_loop_done (count : Nat) (node : device_node) :
    ∀ (n i nd : Nat), (∀ j, i ≤ j → j < i + n → first_failing_read count node j = none) →
      ∃ tr, block_loop count node n i nd =
        .done ((List.range' i n).map (slot_at count node))
          (accumulate nd ((List.range' i n).map (slot_at count node))) tr := by
  intro n
  induction n with
  | zero => intro i nd _; exact ⟨[], rfl⟩
  | succ n ih =>
    intro i nd h
    obtain ⟨tr, hb⟩ := loop_body_of_readable count node i (h i (Nat.le_refl _) (by omega))
    obtain ⟨tr2, hl⟩ := ih (i + 1) (u32 (nd + (slot_at count node i).mem.valid_size))
      (fun j hj1 hj2 => h j (by omega) (by omega))
    refine ⟨tr ++ tr2, ?_⟩
    simp only [block_loop, hb, hl, List.range'_succ, List.map_cons, accumulate_cons]

/-- The loop goes to `ERROR` at the first block with a failing mandatory read, with the code
of that read. -/
theorem block_loop_error (count : Nat) (node : device_node) (e : Errno) :
    ∀ (k n i nd : Nat), k < n →
      (∀ j, i ≤ j → j < i + k → first_failing_read count node j = none) →
      first_failing_read count node (i + k) = some e →
      ∃ tr, block_loop count node n i nd = .error e.val tr := by
  intro k
  induction k with
  | zero =>
    intro n i nd hn _ hf
    obtain ⟨n, rfl⟩ : ∃ m, n = m + 1 := ⟨n - 1, by omega⟩
    obtain ⟨tr, hb⟩ := loop_body_of_failure count node i e (by simpa using hf)
    exact ⟨tr, by simp only [block_loop, hb]⟩
  | succ k ih =>
    intro n i nd hn hpre hf
    obtain ⟨n, rfl⟩ : ∃ m, n = m + 1 := ⟨n - 1, by omega⟩
    obtain ⟨tr, hb⟩ := loop_body_of_readable count node i (hpre i (Nat.le_refl _) (by omega))
    obtain ⟨tr2, hl⟩ := ih n (i + 1) (u32 (nd + (slot_at count node i).mem.valid_size))
      (by omega) (fun j hj1 hj2 => hpre j (by omega) (by omega))
      (by rw [show i + 1 + k = i + (k + 1) by omega]; exact hf)
    exact ⟨tr ++ tr2, by simp only [block_loop, hb, hl]⟩

/-- Readability of the blocks below `N`, in the form the loop lemmas take. -/
theorem all_readable (count : Nat) (node : device_node) (N : Nat)
    (h : ∀ i, i < N → readable node (property "page" i) count = true ∧
      readable node (property "poll" i) count = true ∧
      readable node (property "mem" i) count = true) :
    ∀ i n, i + n ≤ N → ∀ j, i ≤ j → j < i + n → first_failing_read count node j = none :=
  fun _ _ hn j _ hj => (first_failing_read_none_iff count node j).2 (h j (by omega))

/-- C1 (amended): when `num-blocks` reads `N >= 1`, the properties `page{i}`, `poll{i}` and
`mem{i}` are readable for every `i < N` and both allocations succeed, the parser returns 0 with
`N` blocks, `num_data` equal to (the `num_data` of the record on entry + the sum of
`map[i].mem.valid_size`) modulo `2 ^ 32`, and `mapdata` a buffer of exactly `num_data` zero
bytes.  In particular `num_data` is the plain sum when the record enters with `num_data = 0`
and the sum is below `2 ^ 32`. -/
theorem parse_dt_memory_map_total (count : Nat) (A : Allocator) (node : device_node)
    (data : cam_eeprom_memory_block_t) (N : Nat)
    (hN : of_property_read_u32 node "num-blocks" = .ok N) (hpos : 1 ≤ N)
    (hread : ∀ i, i < N → readable node (property "page" i) count = true ∧
      readable node (property "poll" i) count = true ∧
      readable node (property "mem" i) count = true)
    (hmap : A.kzalloc_map N = true) (hbuf : ∀ len, A.kzalloc_mapdata len = true) :
    ∃ slots tr,
      cam_eeprom_parse_dt_memory_map count A node data =
        ⟨0, ⟨some slots, N,
            some (List.replicate (u32 (data.num_data + total_valid_size slots)) 0),
            u32 (data.num_data + total_valid_size slots)⟩, tr⟩ ∧
      slots.length = N ∧
      (data.num_data = 0 → total_valid_size slots < 2 ^ 32 →
        (cam_eeprom_parse_dt_memory_map count A node data).data.num_data =
          total_valid_size slots) := by
  obtain ⟨tr, hl⟩ := block_loop_done count node N 0 data.num_data
    (all_readable count node N hread 0 N (by omega))
  have hne : (List.range' 0 N).map (slot_at count node) ≠ [] := by
    intro h
    have := congrArg List.length h
    simp at this
    omega
  have hres : cam_eeprom_parse_dt_memory_map count A node data =
      ⟨0, ⟨some ((List.range' 0 N).map (slot_at count node)), N,
        some (List.replicate (u32 (data.num_data +
          total_valid_size ((List.range' 0 N).map (slot_at count node)))) 0),
        u32 (data.num_data + total_valid_size ((List.range' 0 N).map (slot_at count node)))⟩,
        [Event.of_property_read_u32 "num-blocks", .kzalloc_map N] ++ tr ++
          [.kzalloc_mapdata (u32 (data.num_data +
            total_valid_size ((List.range' 0 N).map (slot_at count node))))]⟩ := by
    simp only [cam_eeprom_parse_dt_memory_map, hN, hmap, hl, hbuf, accumulate_eq _ _ hne]
    simp
  refine ⟨_, _, hres, by simp, ?_⟩
  intro h0 hlt
  rw [hres]
  simp only [h0, Nat.zero_add, u32]
  exact Nat.mod_eq_of_lt hlt

theorem parse_dt_memory_map_total_witness :
    ∃ slots tr,
      cam_eeprom_parse_dt_memory_map 6 alloc_ok node_two_blocks ⟨none, 0, none, 0⟩ =
        ⟨0, ⟨some slots, 2,
            some (List.replicate (u32 (0 + total_valid_size slots)) 0),
            u32 (0 + total_valid_size slots)⟩, tr⟩ ∧
      slots.length = 2 ∧
      ((0 : Nat) = 0 → total_valid_size slots < 2 ^ 32 →
        (cam_eeprom_parse_dt_memory_map 6 alloc_ok node_two_blocks
          ⟨none, 0, none, 0⟩).data.num_data = total_valid_size slots) :=
  parse_dt_memory_map_total 6 alloc_ok node_two_blocks ⟨none, 0, none, 0⟩ 2 rfl (by decide)
    (fun i hi => by
      have : i = 0 ∨ i = 1 := by omega
      rcases this with rfl | rfl <;> decide)
    rfl (fun _ => rfl)

/-- C1, as stated, fails: on a valid two-block configuration whose valid sizes are `2 ^ 31`
each, parsed into a record that enters with `num_data = 5`, both allocations succeeding, the
parser returns 0 with `num_data = 5` and a five-byte buffer, while the valid sizes of the map
sum to `2 ^ 32`. -/
theorem parse_dt_memory_map_total_counterexample :
    (cam_eeprom_parse_dt_memory_map 6 alloc_ok node_wrap ⟨none, 0, none, 5⟩).rc = 0 ∧
    (cam_eeprom_parse_dt_memory_map 6 alloc_ok node_wrap ⟨none, 0, none, 5⟩).data.num_data = 5 ∧
    (cam_eeprom_parse_dt_memory_map 6 alloc_ok node_wrap ⟨none, 0, none, 5⟩).data.mapdata =
      some [0, 0, 0, 0, 0] ∧
    (cam_eeprom_parse_dt_memory_map 6 alloc_ok node_wrap
      ⟨none, 0, none, 5⟩).data.map.map total_valid_size = some 4294967296 := by
  decide

/-- A tuple longer than a register operation runs into the members that follow, as the copy
through `(uint32_t *)&map[i].page` does in the source: read with eight cells, `page0` leaves its
last two cells in `pageen`, and `mem0` leaves its seventh cell in `saddr`, although `pageen0`
and `saddr0` are unreadable; the last two cells of `poll0` are overwritten by `mem0`. -/
theorem slot_at_eight_cells :
    slot_at 8 node_eight_cells 0 =
      ⟨⟨1, 2, 3, 4, 5, 6⟩, ⟨7, 8, 0, 0, 0, 0⟩, ⟨11, 12, 13, 14, 15, 16⟩,
        ⟨21, 22, 23, 24, 25, 26⟩, 27⟩ ∧
    (cam_eeprom_parse_dt_memory_map 8 alloc_ok node_eight_cells ⟨none, 0, none, 0⟩).data.map =
      some [slot_at 8 node_eight_cells 0] := by
  decide

/-- C2: when `num-blocks` reads `N`, the block sequence is allocated, blocks `0..k-1` have
`page`, `poll` and `mem` readable and one of `page{k}`, `poll{k}`, `mem{k}` is unreadable for
some `k < N`, the parser returns the negative code of the first of these reads that fails and
leaves the output record reset: no map, `num_map = 0`, no data buffer, `num_data = 0`. -/
theorem parse_dt_memory_map_block_failure (count : Nat) (A : Allocator) (node : device_node)
    (data : cam_eeprom_memory_block_t) (N k : Nat)
    (hN : of_property_read_u32 node "num-blocks" = .ok N)
    (hmap : A.kzalloc_map N = true) (hk : k < N)
    (hpre : ∀ j, j < k → readable node (property "page" j) count = true ∧
      readable node (property "poll" j) count = true ∧
      readable node (property "mem" j) count = true)
    (hfail : readable node (property "page" k) count = false ∨
      readable node (property "poll" k) count = false ∨
      readable node (property "mem" k) count = false) :
    ∃ e tr, first_failing_read count node k = some e ∧ e.val < 0 ∧
      cam_eeprom_parse_dt_memory_map count A node data = ⟨e.val, ⟨none, 0, none, 0⟩, tr⟩ := by
  cases hf : first_failing_read count node k with
  | none =>
    have := (first_failing_read_none_iff count node k).1 hf
    rcases hfail with h | h | h <;> simp [this] at h
  | some e =>
    obtain ⟨tr, hl⟩ := block_loop_error count node e k N 0 data.num_data hk
      (fun j _ hj => (first_failing_read_none_iff count node j).2 (hpre j (by omega)))
      (by simpa using hf)
    refine ⟨e, [Event.of_property_read_u32 "num-blocks", .kzalloc_map N] ++ tr ++ [.kfree_map],
      rfl, e.property, ?_⟩
    simp only [cam_eeprom_parse_dt_memory_map, hN, hmap, hl]
    simp [cam_eeprom_memory_block_t.zero]

theorem parse_dt_memory_map_block_failure_witness :
    ∃ e tr, first_failing_read 6 node_no_poll1 1 = some e ∧ e.val < 0 ∧
      cam_eeprom_parse_dt_memory_map 6 alloc_ok node_no_poll1 ⟨none, 0, none, 0⟩ =
        ⟨e.val, ⟨none, 0, none, 0⟩, tr⟩ :=
  parse_dt_memory_map_block_failure 6 alloc_ok node_no_poll1 ⟨none, 0, none, 0⟩ 2 1 rfl rfl
    (by decide)
    (fun j hj => by
      have : j = 0 := by omega
      subst this
      decide)
    (Or.inr (Or.inl (by decide)))

/-- C10: when `num-blocks` is unreadable the parser returns the negative code of that read,
the output record is exactly the record on entry, and the read of `num-blocks` is the only
external call made: no allocation and no read of a block property. -/
theorem parse_dt_memory_map_no_num_blocks (count : Nat) (A : Allocator) (node : device_node)
    (data : cam_eeprom_memory_block_t) (e : Errno)
    (h : of_property_read_u32 node "num-blocks" = .error e) :
    cam_eeprom_parse_dt_memory_map count A node data =
      ⟨e.val, data, [Event.of_property_read_u32 "num-blocks"]⟩ ∧ e.val < 0 := by
  refine ⟨?_, e.property⟩
  simp only [cam_eeprom_parse_dt_memory_map, h]

theorem parse_dt_memory_map_no_num_blocks_witness :
    cam_eeprom_parse_dt_memory_map 6 alloc_ok null_node ⟨some [], 3, some [7], 1⟩ =
      ⟨einval.val, ⟨some [], 3, some [7], 1⟩, [Event.of_property_read_u32 "num-blocks"]⟩ ∧
      einval.val < 0 :=
  parse_dt_memory_map_no_num_blocks 6 alloc_ok null_node ⟨some [], 3, some [7], 1⟩ einval rfl

/-- The GPIO step changes neither `userspace_probe` nor the addressing, and calls at most the
pin-table builder. -/
theorem get_dt_data_gpio_frame (L : Loaders) (e_ctrl : cam_eeprom_ctrl_t) (trace : List Event) :
    (get_dt_data_gpio L e_ctrl trace).e_ctrl.userspace_probe = e_ctrl.userspace_probe ∧
    (get_dt_data_gpio L e_ctrl trace).e_ctrl.soc_private.i2c_info = e_ctrl.soc_private.i2c_info ∧
    ((get_dt_data_gpio L e_ctrl trace).trace = trace ∨
      (get_dt_data_gpio L e_ctrl trace).trace =
        trace ++ [.cam_sensor_util_init_gpio_pin_tbl]) := by
  unfold get_dt_data_gpio
  split
  · simp
  · split
    · simp
    · dsimp only
      split <;> simp

/-- The loaders change neither `userspace_probe` nor the addressing, make no property read,
and skip the power-sequence loader when the probe is left to user space. -/
theorem get_dt_data_loaders_frame (L : Loaders) (e_ctrl : cam_eeprom_ctrl_t)
    (of_node : device_node) :
    (get_dt_data_loaders L e_ctrl of_node).e_ctrl.userspace_probe = e_ctrl.userspace_probe ∧
    (get_dt_data_loaders L e_ctrl of_node).e_ctrl.soc_private.i2c_info =
      e_ctrl.soc_private.i2c_info ∧
    (∀ ev, ev ∈ (get_dt_data_loaders L e_ctrl of_node).trace → loader_event ev = true) ∧
    (e_ctrl.userspace_probe = true →
      Event.cam_get_dt_power_setting_data ∉ (get_dt_data_loaders L e_ctrl of_node).trace) := by
  unfold get_dt_data_loaders
  dsimp only
  split
  · simp [loader_event]
  · split
    · split
      · simp_all [loader_event]
      · rename_i hu _
        obtain ⟨h1, h2, h3⟩ := get_dt_data_gpio_frame L
          { e_ctrl with
            soc_info := (L.cam_get_dt_power_setting_data of_node
              (L.cam_soc_util_get_dt_properties e_ctrl.soc_info).2
              e_ctrl.soc_private.power_info).2.1
            soc_private := { e_ctrl.soc_private with
              power_info := (L.cam_get_dt_power_setting_data of_node
                (L.cam_soc_util_get_dt_properties e_ctrl.soc_info).2
                e_ctrl.soc_private.power_info).2.2 } }
          [.cam_soc_util_get_dt_properties, .cam_get_dt_power_setting_data]
        refine ⟨h1, h2, ?_, ?_⟩
        · rcases h3 with h3 | h3 <;> rw [h3] <;> simp [loader_event]
        · intro hu2
          rw [hu2] at hu
          exact absurd hu (by simp)
    · obtain ⟨h1, h2, h3⟩ := get_dt_data_gpio_frame L
        { e_ctrl with soc_info := (L.cam_soc_util_get_dt_properties e_ctrl.soc_info).2 }
        [.cam_soc_util_get_dt_properties]
      refine ⟨h1, h2, ?_, ?_⟩
      · rcases h3 with h3 | h3 <;> rw [h3] <;> simp [loader_event]
      · intro _
        rcases h3 with h3 | h3 <;> rw [h3] <;> simp

/-- The frame of the common tail, whenever it returns. -/
theorem get_dt_data_frame (L : Loaders) (e_ctrl : cam_eeprom_ctrl_t) (r : ProbeResult)
    (h : cam_eeprom_get_dt_data L e_ctrl = some r) :
    r.e_ctrl.userspace_probe = e_ctrl.userspace_probe ∧
    r.e_ctrl.soc_private.i2c_info = e_ctrl.soc_private.i2c_info ∧
    (∀ ev, ev ∈ r.trace → loader_event ev = true) ∧
    (e_ctrl.userspace_probe = true → Event.cam_get_dt_power_setting_data ∉ r.trace) := by
  unfold cam_eeprom_get_dt_data at h
  split at h
  · exact absurd h (by simp)
  · simp only [Option.some.injEq] at h
    subst h
    simp
  · simp only [Option.some.injEq] at h
    subst h
    exact get_dt_data_loaders_frame L e_ctrl _

/-- With a platform device in place the common tail returns. -/
theorem get_dt_data_of_pdev (L : Loaders) (e_ctrl : cam_eeprom_ctrl_t) (pdev : platform_device)
    (h : e_ctrl.soc_info.pdev = some pdev) :
    ∃ r, cam_eeprom_get_dt_data L e_ctrl = some r := by
  unfold cam_eeprom_get_dt_data get_dt_data_of_node
  cases e_ctrl.eeprom_device_type
  · simp
  · simp only [h]
    cases pdev.of_node <;> simp
  · cases e_ctrl.spi_master_of_node <;> simp

/-- C4, at its failing input: a platform probe on a complete node with `userspace_probe`
false and a GPIO table that is present with zero entries.  The common tail, run on the context
the probe hands it, returns `-EINVAL`; the probe itself returns 0. -/
theorem platform_soc_init_tail_code_lost :
    rc? (cam_eeprom_get_dt_data loaders_ok
      { ctrl_platform (some node_platform) (some ⟨0⟩) with
        subdev_id := 2
        cci_i2c_master := 1
        soc_private := ⟨some "eeprom0", ⟨0, 0⟩, ⟨[], none⟩, ⟨false, false, 0, 0⟩⟩ }) =
      some (-EINVAL) ∧
    rc? (cam_eeprom_platform_driver_soc_init 4 loaders_ok 0
      (ctrl_platform (some node_platform) (some ⟨0⟩))) = some 0 := by
  decide

/-- C5, at its failing input: a platform probe on a node without `i2c-freq-mode`, the common
tail succeeding.  The probe stores `i2c_freq_mode = 0` and returns the negative code of the
failed read, not 0. -/
theorem platform_soc_init_freq_code_returned :
    rc? (cam_eeprom_platform_driver_soc_init 4 loaders_ok 0
      (ctrl_platform (some node_platform_no_freq) none)) = some (-EINVAL) ∧
    i2c_info? (cam_eeprom_platform_driver_soc_init 4 loaders_ok 0
      (ctrl_platform (some node_platform_no_freq) none)) = some ⟨160, 0⟩ := by
  decide

/-- C6, at its failing input: a platform probe on a node without `slave-addr`.  The stored
`slave_addr` is whatever the uninitialised local `temp` held: 57005 in one run, 48879 in
another, never the 0 of the claim. -/
theorem platform_soc_init_slave_addr_indeterminate :
    i2c_info? (cam_eeprom_platform_driver_soc_init 4 loaders_ok 57005
      (ctrl_platform (some node_platform_no_slave) none)) = some ⟨57005, 1⟩ ∧
    i2c_info? (cam_eeprom_platform_driver_soc_init 4 loaders_ok 48879
      (ctrl_platform (some node_platform_no_slave) none)) = some ⟨48879, 1⟩ := by
  decide

/-- A platform probe that passes its entry checks is the common tail followed by the
addressing step. -/
theorem platform_soc_init_eq (I2C_MAX_MODES : Nat) (L : Loaders) (temp : Nat)
    (e_ctrl : cam_eeprom_ctrl_t) (pdev : platform_device) (of_node : device_node)
    (v1 v2 : Nat)
    (hp : e_ctrl.soc_info.pdev = some pdev) (hn : pdev.of_node = some of_node)
    (hc : of_property_read_u32 of_node "cell-index" = .ok v1)
    (hm : of_property_read_u32 of_node "cci-master" = .ok v2) :
    ∃ t, cam_eeprom_get_dt_data L
        (ctrl_before_tail e_ctrl v1 v2 (of_node.read_string "eeprom-name")) = some t ∧
      cam_eeprom_platform_driver_soc_init I2C_MAX_MODES L temp e_ctrl =
        some (soc_init_addressing I2C_MAX_MODES of_node temp t.rc t.e_ctrl
          ([.of_property_read_u32 "cell-index", .of_property_read_u32 "cci-master",
            .of_property_read_string "eeprom-name"] ++ t.trace)) := by
  obtain ⟨t, ht⟩ := get_dt_data_of_pdev L
    (ctrl_before_tail e_ctrl v1 v2 (of_node.read_string "eeprom-name")) pdev
    (by unfold ctrl_before_tail; cases of_node.read_string "eeprom-name" <;> exact hp)
  refine ⟨t, ht, ?_⟩
  unfold ctrl_before_tail at ht
  simp only [cam_eeprom_platform_driver_soc_init, hp, hn, hc, hm]
  cases hs : of_node.read_string "eeprom-name" <;> simp only [hs] at ht <;> simp only [ht]

/-- C8: for a platform probe that passes the entry checks with `eeprom-name` readable and
`userspace_probe` false, a readable `i2c-freq-mode` of value at least `I2C_MAX_MODES` makes the
probe store `i2c_freq_mode = 0` and return 0; and whatever `i2c-freq-mode` reads, the stored
`i2c_freq_mode` is below `I2C_MAX_MODES` (the enumeration having at least one mode). -/
theorem platform_soc_init_freq_mode_bound (I2C_MAX_MODES : Nat) (L : Loaders) (temp : Nat)
    (e_ctrl : cam_eeprom_ctrl_t) (pdev : platform_device) (of_node : device_node)
    (v1 v2 : Nat) (s : String)
    (hp : e_ctrl.soc_info.pdev = some pdev) (hn : pdev.of_node = some of_node)
    (hc : of_property_read_u32 of_node "cell-index" = .ok v1)
    (hm : of_property_read_u32 of_node "cci-master" = .ok v2)
    (hs : of_node.read_string "eeprom-name" = .ok s)
    (hu : e_ctrl.userspace_probe = false) :
    ∃ r, cam_eeprom_platform_driver_soc_init I2C_MAX_MODES L temp e_ctrl = some r ∧
      (∀ v, of_property_read_u32 of_node "i2c-freq-mode" = .ok v → I2C_MAX_MODES ≤ v →
        r.rc = 0 ∧ r.e_ctrl.soc_private.i2c_info.i2c_freq_mode = 0) ∧
      (0 < I2C_MAX_MODES → r.e_ctrl.soc_private.i2c_info.i2c_freq_mode < I2C_MAX_MODES) := by
  obtain ⟨t, ht, hr⟩ := platform_soc_init_eq I2C_MAX_MODES L temp e_ctrl pdev of_node v1 v2
    hp hn hc hm
  have hut : t.e_ctrl.userspace_probe = false := by
    rw [(get_dt_data_frame L _ t ht).1, hs]
    exact hu
  refine ⟨_, hr, ?_, ?_⟩
  · intro v hv hge
    simp only [soc_init_addressing, hut, hv, rc_of]
    simp [hge]
  · intro hpos
    simp only [soc_init_addressing, hut]
    simp only [if_true]
    split
    · simpa using hpos
    · split
      · exact hpos
      · omega

theorem platform_soc_init_freq_mode_bound_witness :
    ∃ r, cam_eeprom_platform_driver_soc_init 4 loaders_ok 0
        (ctrl_platform (some node_platform_freq7) none) = some r ∧
      (∀ v, of_property_read_u32 node_platform_freq7 "i2c-freq-mode" = .ok v → 4 ≤ v →
        r.rc = 0 ∧ r.e_ctrl.soc_private.i2c_info.i2c_freq_mode = 0) ∧
      (0 < 4 → r.e_ctrl.soc_private.i2c_info.i2c_freq_mode < 4) :=
  platform_soc_init_freq_mode_bound 4 loaders_ok 0 (ctrl_platform (some node_platform_freq7) none)
    ⟨some node_platform_freq7⟩ node_platform_freq7 2 1 "eeprom0" rfl rfl rfl rfl rfl rfl

/-- C9: for a platform probe that passes the entry checks (platform device and node present,
`cell-index` and `cci-master` readable) and finds `eeprom-name` unreadable, the probe sets
`userspace_probe`, returns exactly the code and the context of the common tail run with
`userspace_probe` set, and its calls are the three entry reads followed by those of the tail:
the power-sequence loader is not among them, nor is a read of `slave-addr` or of
`i2c-freq-mode`. -/
theorem platform_soc_init_no_name (I2C_MAX_MODES : Nat) (L : Loaders) (temp : Nat)
    (e_ctrl : cam_eeprom_ctrl_t) (pdev : platform_device) (of_node : device_node)
    (v1 v2 : Nat) (e : Errno)
    (hp : e_ctrl.soc_info.pdev = some pdev) (hn : pdev.of_node = some of_node)
    (hc : of_property_read_u32 of_node "cell-index" = .ok v1)
    (hm : of_property_read_u32 of_node "cci-master" = .ok v2)
    (hs : of_node.read_string "eeprom-name" = .error e) :
    ∃ t r,
      cam_eeprom_get_dt_data L
        { e_ctrl with subdev_id := v1, cci_i2c_master := v2, userspace_probe := true } =
        some t ∧
      cam_eeprom_platform_driver_soc_init I2C_MAX_MODES L temp e_ctrl = some r ∧
      r.rc = t.rc ∧ r.e_ctrl = t.e_ctrl ∧ r.e_ctrl.userspace_probe = true ∧
      r.trace = [.of_property_read_u32 "cell-index", .of_property_read_u32 "cci-master",
        .of_property_read_string "eeprom-name"] ++ t.trace ∧
      Event.cam_get_dt_power_setting_data ∉ r.trace ∧
      Event.of_property_read_u32 "slave-addr" ∉ r.trace ∧
      Event.of_property_read_u32 "i2c-freq-mode" ∉ r.trace := by
  obtain ⟨t, ht, hr⟩ := platform_soc_init_eq I2C_MAX_MODES L temp e_ctrl pdev of_node v1 v2
    hp hn hc hm
  simp only [hs, ctrl_before_tail] at ht
  obtain ⟨hu, _, hev, hpow⟩ := get_dt_data_frame L _ t ht
  have hut : t.e_ctrl.userspace_probe = true := hu
  have hno : ∀ name, Event.of_property_read_u32 name ∉ t.trace :=
    fun name hmem => by simpa [loader_event] using hev _ hmem
  refine ⟨t, _, ht, hr, ?_, ?_, ?_, ?_, ?_, ?_, ?_⟩ <;>
    simp only [soc_init_addressing, hut]
  · simp
  · simp
  · simp [hut]
  · simp
  · simpa using hpow rfl
  · simpa using hno _
  · simpa using hno _

theorem platform_soc_init_no_name_witness :
    ∃ t r,
      cam_eeprom_get_dt_data loaders_ok
        { ctrl_platform (some node_platform_no_name) none with
          subdev_id := 2, cci_i2c_master := 1, userspace_probe := true } = some t ∧
      cam_eeprom_platform_driver_soc_init 4 loaders_ok 0
        (ctrl_platform (some node_platform_no_name) none) = some r ∧
      r.rc = t.rc ∧ r.e_ctrl = t.e_ctrl ∧ r.e_ctrl.userspace_probe = true ∧
      r.trace = [.of_property_read_u32 "cell-index", .of_property_read_u32 "cci-master",
        .of_property_read_string "eeprom-name"] ++ t.trace ∧
      Event.cam_get_dt_power_setting_data ∉ r.trace ∧
      Event.of_property_read_u32 "slave-addr" ∉ r.trace ∧
      Event.of_property_read_u32 "i2c-freq-mode" ∉ r.trace :=
  platform_soc_init_no_name 4 loaders_ok 0 (ctrl_platform (some node_platform_no_name) none)
    ⟨some node_platform_no_name⟩ node_platform_no_name 2 1 einval rfl rfl rfl rfl rfl

/-- C7 (amended): when `cmm-data-support` is present, for every prior content of the record,
`cam_eeprom_cmm_dts` returns 0 and leaves `cmm_support` true, `cmm_compression` equal to the
presence of `cmm-data-compressed`, `cmm_offset` equal to the value of `cmm-data-offset` if
readable and to its prior content otherwise, and `cmm_size` equal to the value of
`cmm-data-size` if readable and to its prior content otherwise; the rest of the private data
is untouched. -/
theorem cmm_dts_supported (eb_info : cam_eeprom_soc_private) (of_node : device_node)
    (h : of_node.read_bool "cmm-data-support" = true) :
    cam_eeprom_cmm_dts eb_info of_node =
      ⟨0,
        { eb_info with cmm_data :=
          { cmm_support := true
            cmm_compression := of_node.read_bool "cmm-data-compressed"
            cmm_offset := u32_after (of_property_read_u32 of_node "cmm-data-offset")
              eb_info.cmm_data.cmm_offset
            cmm_size := u32_after (of_property_read_u32 of_node "cmm-data-size")
              eb_info.cmm_data.cmm_size } },
        [.of_property_read_bool "cmm-data-support",
          .of_property_read_bool "cmm-data-compressed",
          .of_property_read_u32 "cmm-data-offset", .of_property_read_u32 "cmm-data-size"]⟩ := by
  unfold cam_eeprom_cmm_dts u32_after
  simp only [h]
  cases of_property_read_u32 of_node "cmm-data-offset" <;>
    cases of_property_read_u32 of_node "cmm-data-size" <;> simp

theorem cmm_dts_supported_witness :
    cam_eeprom_cmm_dts ⟨none, ⟨0, 0⟩, ⟨[], none⟩, ⟨false, false, 0, 0⟩⟩ node_cmm_full =
      ⟨0,
        { (⟨none, ⟨0, 0⟩, ⟨[], none⟩, ⟨false, false, 0, 0⟩⟩ : cam_eeprom_soc_private) with
          cmm_data :=
          { cmm_support := true
            cmm_compression := node_cmm_full.read_bool "cmm-data-compressed"
            cmm_offset := u32_after (of_property_read_u32 node_cmm_full "cmm-data-offset") 0
            cmm_size := u32_after (of_property_read_u32 node_cmm_full "cmm-data-size") 0 } },
        [.of_property_read_bool "cmm-data-support",
          .of_property_read_bool "cmm-data-compressed",
          .of_property_read_u32 "cmm-data-offset", .of_property_read_u32 "cmm-data-size"]⟩ :=
  cmm_dts_supported ⟨none, ⟨0, 0⟩, ⟨[], none⟩, ⟨false, false, 0, 0⟩⟩ node_cmm_full rfl

/-- C7, as stated, fails: on a node with `cmm-data-support` and neither `cmm-data-offset` nor
`cmm-data-size`, a record that enters with offset 7 and size 9 leaves with offset 7 and size 9,
not 0 and 0. -/
theorem cmm_dts_supported_counterexample :
    node_cmm_bare.read_bool "cmm-data-support" = true ∧
    readable node_cmm_bare "cmm-data-offset" 1 = false ∧
    readable node_cmm_bare "cmm-data-size" 1 = false ∧
    (cam_eeprom_cmm_dts ⟨none, ⟨0, 0⟩, ⟨[], none⟩, ⟨false, false, 7, 9⟩⟩ node_cmm_bare).rc = 0 ∧
    (cam_eeprom_cmm_dts ⟨none, ⟨0, 0⟩, ⟨[], none⟩, ⟨false, false, 7, 9⟩⟩
      node_cmm_bare).eb_info.cmm_data = ⟨true, true, 7, 9⟩ := by
  decide

/-! ## The memory-map parser: what a run that returns 0 has done -/

/-- A pass that fills its slot made no failing mandatory read, and the slot is `slot_at`. -/
theorem loop_body_ok_inv (count : Nat) (node : device_node) (i : Nat) (tr : List Event)
    (m : cam_eeprom_memory_map_t) (h : loop_body count node i = (tr, .ok m)) :
    first_failing_read count node i = none ∧ m = slot_at count node i := by
  constructor
  · cases hf : first_failing_read count node i with
    | none => rfl
    | some e =>
      obtain ⟨tr2, h2⟩ := loop_body_of_failure count node i e hf
      rw [h] at h2
      simp at h2
  · unfold slot_at
    rw [h]

/-- How the loop ended tells what it read: past its last pass, every block was readable and the
slots are those of the blocks in index order; at `ERROR`, the code is negative. -/
theorem block_loop_inv (count : Nat) (node : device_node) :
    ∀ (n i nd : Nat),
      (∀ slots nd2 tr, block_loop count node n i nd = .done slots nd2 tr →
        (∀ j, i ≤ j → j < i + n → first_failing_read count node j = none) ∧
        slots = (List.range' i n).map (slot_at count node) ∧
        nd2 = accumulate nd slots) ∧
      (∀ rc tr, block_loop count node n i nd = .error rc tr → rc < 0) := by
  intro n
  induction n with
  | zero =>
    intro i nd
    constructor
    · intro slots nd2 tr h
      simp only [block_loop, LoopEnd.done.injEq] at h
      obtain ⟨h1, h2, _⟩ := h
      subst h1 h2
      exact ⟨fun j h1 h2 => by omega, rfl, rfl⟩
    · intro rc tr h
      simp [block_loop] at h
  | succ n ih =>
    intro i nd
    rcases hb : loop_body count node i with ⟨tr1, res⟩
    cases res with
    | error e =>
      constructor
      · intro slots nd2 tr h
        simp [block_loop, hb] at h
      · intro rc tr h
        simp only [block_loop, hb, LoopEnd.error.injEq] at h
        rw [← h.1]
        exact e.property
    | ok m =>
      obtain ⟨hr, hm⟩ := loop_body_ok_inv count node i tr1 m hb
      obtain ⟨ih1, ih2⟩ := ih (i + 1) (u32 (nd + m.mem.valid_size))
      cases hl : block_loop count node n (i + 1) (u32 (nd + m.mem.valid_size)) with
      | error rc2 tr2 =>
        constructor
        · intro slots nd2 tr h
          simp [block_loop, hb, hl] at h
        · intro rc tr h
          simp only [block_loop, hb, hl, LoopEnd.error.injEq] at h
          rw [← h.1]
          exact ih2 rc2 tr2 hl
      | done slots2 nd3 tr2 =>
        obtain ⟨h1, h2, h3⟩ := ih1 slots2 nd3 tr2 hl
        constructor
        · intro slots nd2 tr h
          simp only [block_loop, hb, hl, LoopEnd.done.injEq] at h
          obtain ⟨hs, hn, _⟩ := h
          subst hs hn
          refine ⟨?_, ?_, ?_⟩
          · intro j hj1 hj2
            by_cases hji : j = i
            · subst hji; exact hr
            · exact h1 j (by omega) (by omega)
          · rw [List.range'_succ, List.map_cons, ← hm, h2]
          · rw [accumulate_cons, h3]
        · intro rc tr h
          simp [block_loop, hb, hl] at h

/-- A run of the parser that returns 0 is a run on a configuration all of whose blocks were
readable, with both allocations granted. -/
theorem parse_rc_zero_inv (count : Nat) (A : Allocator) (node : device_node)
    (data : cam_eeprom_memory_block_t)
    (h : (cam_eeprom_parse_dt_memory_map count A node data).rc = 0) :
    ∃ N tr, of_property_read_u32 node "num-blocks" = .ok N ∧
      (∀ i, i < N → first_failing_read count node i = none) ∧
      cam_eeprom_parse_dt_memory_map count A node data =
        ⟨0, ⟨some ((List.range' 0 N).map (slot_at count node)), N,
          some (List.replicate
            (accumulate data.num_data ((List.range' 0 N).map (slot_at count node))) 0),
          accumulate data.num_data ((List.range' 0 N).map (slot_at count node))⟩,
          [Event.of_property_read_u32 "num-blocks", .kzalloc_map N] ++ tr ++
            [.kzalloc_mapdata
              (accumulate data.num_data ((List.range' 0 N).map (slot_at count node)))]⟩ := by
  unfold cam_eeprom_parse_dt_memory_map at h ⊢
  cases hN : of_property_read_u32 node "num-blocks" with
  | error e =>
    simp only [hN] at h
    have := e.property
    omega
  | ok N =>
    simp only [hN] at h ⊢
    by_cases hm : A.kzalloc_map N = false
    · simp [hm, ENOMEM] at h
    · simp only [hm] at h ⊢
      obtain ⟨inv1, inv2⟩ := block_loop_inv count node N 0 data.num_data
      cases hl : block_loop count node N 0 data.num_data with
      | error rc tr =>
        simp only [hl] at h
        have := inv2 rc tr hl
        simp at h
        omega
      | done slots nd tr =>
        obtain ⟨h1, h2, h3⟩ := inv1 slots nd tr hl
        simp only [hl] at h ⊢
        by_cases hd : A.kzalloc_mapdata nd = false
        · simp [hd, ENOMEM] at h
        · subst h2
          subst h3
          refine ⟨N, tr, rfl, fun i hi => h1 i (by omega) (by omega), ?_⟩
          simp [hd]

/-- The running `num_data` from a value that fits a `uint32_t` is the truncated total. -/
theorem accumulate_eq_of_lt (slots : List cam_eeprom_memory_map_t) (nd : Nat)
    (h : nd < 2 ^ 32) : accumulate nd slots = (nd + total_valid_size slots) % 2 ^ 32 := by
  by_cases hs : slots = []
  · subst hs
    simp only [accumulate, total_valid_size, List.foldl_nil, List.map_nil, List.sum_nil,
      Nat.add_zero]
    exact (Nat.mod_eq_of_lt h).symm
  · rw [accumulate_eq slots nd hs]
    rfl

/-- C18: whenever the parser returns 0 on a record whose `num_data` is a `uint32_t` value, the
final `num_data` is (the `num_data` on entry + the sum of the valid sizes of the map) modulo
`2 ^ 32`, the data buffer has exactly that many zero bytes, and the allocation of a buffer of
that length is among the calls made. -/
theorem parse_dt_memory_map_num_data_wraps (count : Nat) (A : Allocator) (node : device_node)
    (data : cam_eeprom_memory_block_t) (hfit : data.num_data < 2 ^ 32)
    (h : (cam_eeprom_parse_dt_memory_map count A node data).rc = 0) :
    ∃ slots,
      (cam_eeprom_parse_dt_memory_map count A node data).data.map = some slots ∧
      (cam_eeprom_parse_dt_memory_map count A node data).data.num_data =
        (data.num_data + total_valid_size slots) % 2 ^ 32 ∧
      (cam_eeprom_parse_dt_memory_map count A node data).data.mapdata =
        some (List.replicate ((data.num_data + total_valid_size slots) % 2 ^ 32) 0) ∧
      Event.kzalloc_mapdata ((data.num_data + total_valid_size slots) % 2 ^ 32) ∈
        (cam_eeprom_parse_dt_memory_map count A node data).trace := by
  obtain ⟨N, tr, _, _, hres⟩ := parse_rc_zero_inv count A node data h
  rw [accumulate_eq_of_lt _ _ hfit] at hres
  refine ⟨_, by rw [hres], by rw [hres], by rw [hres], ?_⟩
  rw [hres]
  simp

theorem parse_dt_memory_map_num_data_wraps_witness :
    ∃ slots,
      (cam_eeprom_parse_dt_memory_map 6 alloc_ok node_wrap ⟨none, 0, none, 5⟩).data.map =
        some slots ∧
      (cam_eeprom_parse_dt_memory_map 6 alloc_ok node_wrap ⟨none, 0, none, 5⟩).data.num_data =
        (5 + total_valid_size slots) % 2 ^ 32 ∧
      (cam_eeprom_parse_dt_memory_map 6 alloc_ok node_wrap ⟨none, 0, none, 5⟩).data.mapdata =
        some (List.replicate ((5 + total_valid_size slots) % 2 ^ 32) 0) ∧
      Event.kzalloc_mapdata ((5 + total_valid_size slots) % 2 ^ 32) ∈
        (cam_eeprom_parse_dt_memory_map 6 alloc_ok node_wrap ⟨none, 0, none, 5⟩).trace :=
  parse_dt_memory_map_num_data_wraps 6 alloc_ok node_wrap ⟨none, 0, none, 5⟩ (by decide)
    (by decide)

/-- C12, at its failing input: a zero-initialised record, a valid two-block configuration, and
an allocator that refuses the block sequence.  The parser returns `-ENOMEM` and leaves
`num_map = 2` in the record, with no map.  With the same configuration and an allocator that
refuses the data buffer instead, it returns `-ENOMEM` with the record reset. -/
theorem parse_dt_memory_map_map_alloc_failure :
    cam_eeprom_parse_dt_memory_map 6 alloc_no_map node_two_blocks ⟨none, 0, none, 0⟩ =
      ⟨-ENOMEM, ⟨none, 2, none, 0⟩,
        [.of_property_read_u32 "num-blocks", .kzalloc_map 2]⟩ ∧
    (cam_eeprom_parse_dt_memory_map 6 alloc_no_mapdata node_two_blocks
      ⟨none, 0, none, 0⟩).rc = -ENOMEM ∧
    (cam_eeprom_parse_dt_memory_map 6 alloc_no_mapdata node_two_blocks
      ⟨none, 0, none, 0⟩).data = ⟨none, 0, none, 0⟩ := by
  decide

/-! ## The probe routines: entry checks, common tail, user-space probe -/

/-- C11: when `cmm-data-support` is absent, `cam_eeprom_cmm_dts` returns 0, clears
`cmm_support`, leaves `cmm_compression`, `cmm_offset`, `cmm_size` and the rest of the private
data as they were, and its only call is the read of `cmm-data-support`; hence every node
without `cmm-data-support` yields the same result, whatever other properties it holds. -/
theorem cmm_dts_unsupported (eb_info : cam_eeprom_soc_private) (of_node : device_node)
    (h : of_node.read_bool "cmm-data-support" = false) :
    cam_eeprom_cmm_dts eb_info of_node =
      ⟨0, { eb_info with cmm_data := { eb_info.cmm_data with cmm_support := false } },
        [.of_property_read_bool "cmm-data-support"]⟩ ∧
    ∀ other : device_node, other.read_bool "cmm-data-support" = false →
      cam_eeprom_cmm_dts eb_info other = cam_eeprom_cmm_dts eb_info of_node := by
  have key : ∀ n : device_node, n.read_bool "cmm-data-support" = false →
      cam_eeprom_cmm_dts eb_info n =
        ⟨0, { eb_info with cmm_data := { eb_info.cmm_data with cmm_support := false } },
          [.of_property_read_bool "cmm-data-support"]⟩ := by
    intro n hn
    simp [cam_eeprom_cmm_dts, hn]
  exact ⟨key of_node h, fun other ho => by rw [key other ho, key of_node h]⟩

theorem cmm_dts_unsupported_witness :
    cam_eeprom_cmm_dts ⟨none, ⟨0, 0⟩, ⟨[], none⟩, ⟨true, true, 7, 9⟩⟩ node_cmm_unsupported =
      ⟨0, { (⟨none, ⟨0, 0⟩, ⟨[], none⟩, ⟨true, true, 7, 9⟩⟩ : cam_eeprom_soc_private) with
          cmm_data := { (⟨true, true, 7, 9⟩ : cam_eeprom_cmm_t) with cmm_support := false } },
        [.of_property_read_bool "cmm-data-support"]⟩ ∧
    ∀ other : device_node, other.read_bool "cmm-data-support" = false →
      cam_eeprom_cmm_dts ⟨none, ⟨0, 0⟩, ⟨[], none⟩, ⟨true, true, 7, 9⟩⟩ other =
        cam_eeprom_cmm_dts ⟨none, ⟨0, 0⟩, ⟨[], none⟩, ⟨true, true, 7, 9⟩⟩
          node_cmm_unsupported :=
  cmm_dts_unsupported ⟨none, ⟨0, 0⟩, ⟨[], none⟩, ⟨true, true, 7, 9⟩⟩ node_cmm_unsupported rfl

/-- C14: `cam_eeprom_platform_driver_soc_init` returns `-EINVAL` with the context untouched
and no call made when the platform device is null, and likewise when its node is null; it
returns the negative code of the read with the context untouched when `cell-index` is
unreadable, and with only `subdev_id` written when `cci-master` is unreadable.  In the four
cases the calls made are at most the reads of `cell-index` and `cci-master`: `eeprom-name` is
not read and no loader is invoked, so `userspace_probe` and the addressing are unchanged. -/
theorem platform_soc_init_entry_checks (I2C_MAX_MODES : Nat) (L : Loaders) (temp : Nat)
    (e_ctrl : cam_eeprom_ctrl_t) :
    (e_ctrl.soc_info.pdev = none →
      cam_eeprom_platform_driver_soc_init I2C_MAX_MODES L temp e_ctrl =
        some ⟨-EINVAL, e_ctrl, []⟩) ∧
    (∀ pdev, e_ctrl.soc_info.pdev = some pdev → pdev.of_node = none →
      cam_eeprom_platform_driver_soc_init I2C_MAX_MODES L temp e_ctrl =
        some ⟨-EINVAL, e_ctrl, []⟩) ∧
    (∀ pdev of_node e, e_ctrl.soc_info.pdev = some pdev → pdev.of_node = some of_node →
      of_property_read_u32 of_node "cell-index" = .error e →
      e.val < 0 ∧
      cam_eeprom_platform_driver_soc_init I2C_MAX_MODES L temp e_ctrl =
        some ⟨e.val, e_ctrl, [.of_property_read_u32 "cell-index"]⟩) ∧
    (∀ pdev of_node v e, e_ctrl.soc_info.pdev = some pdev → pdev.of_node = some of_node →
      of_property_read_u32 of_node "cell-index" = .ok v →
      of_property_read_u32 of_node "cci-master" = .error e →
      e.val < 0 ∧
      cam_eeprom_platform_driver_soc_init I2C_MAX_MODES L temp e_ctrl =
        some ⟨e.val, { e_ctrl with subdev_id := v },
          [.of_property_read_u32 "cell-index", .of_property_read_u32 "cci-master"]⟩) := by
  refine ⟨?_, ?_, ?_, ?_⟩
  · intro hp
    simp only [cam_eeprom_platform_driver_soc_init, hp]
  · intro pdev hp hn
    simp only [cam_eeprom_platform_driver_soc_init, hp, hn]
  · intro pdev of_node e hp hn hc
    exact ⟨e.property, by simp only [cam_eeprom_platform_driver_soc_init, hp, hn, hc]⟩
  · intro pdev of_node v e hp hn hc hm
    exact ⟨e.property, by simp only [cam_eeprom_platform_driver_soc_init, hp, hn, hc, hm]⟩

theorem platform_soc_init_entry_checks_witness :
    cam_eeprom_platform_driver_soc_init 4 loaders_ok 0
        { ctrl_platform none none with soc_info := ⟨none, none⟩ } =
      some ⟨-EINVAL, { ctrl_platform none none with soc_info := ⟨none, none⟩ }, []⟩ ∧
    cam_eeprom_platform_driver_soc_init 4 loaders_ok 0 (ctrl_platform none none) =
      some ⟨-EINVAL, ctrl_platform none none, []⟩ ∧
    (einval.val < 0 ∧
      cam_eeprom_platform_driver_soc_init 4 loaders_ok 0
          (ctrl_platform (some node_platform_no_cell) none) =
        some ⟨einval.val, ctrl_platform (some node_platform_no_cell) none,
          [.of_property_read_u32 "cell-index"]⟩) ∧
    (einval.val < 0 ∧
      cam_eeprom_platform_driver_soc_init 4 loaders_ok 0
          (ctrl_platform (some node_platform_no_cci) none) =
        some ⟨einval.val, { ctrl_platform (some node_platform_no_cci) none with subdev_id := 2 },
          [.of_property_read_u32 "cell-index", .of_property_read_u32 "cci-master"]⟩) :=
  ⟨(platform_soc_init_entry_checks 4 loaders_ok 0
      { ctrl_platform none none with soc_info := ⟨none, none⟩ }).1 rfl,
    (platform_soc_init_entry_checks 4 loaders_ok 0 (ctrl_platform none none)).2.1 ⟨none⟩ rfl rfl,
    (platform_soc_init_entry_checks 4 loaders_ok 0
      (ctrl_platform (some node_platform_no_cell) none)).2.2.1
      ⟨some node_platform_no_cell⟩ node_platform_no_cell einval rfl rfl rfl,
    (platform_soc_init_entry_checks 4 loaders_ok 0
      (ctrl_platform (some node_platform_no_cci) none)).2.2.2
      ⟨some node_platform_no_cci⟩ node_platform_no_cci 2 einval rfl rfl rfl rfl⟩

/-- C17: for a platform probe that passes the entry checks with `eeprom-name` readable and
`userspace_probe` false on entry, the value returned is the code of the read of
`i2c-freq-mode` (0 when it is readable), whatever the loaders return and whatever `slave-addr`
reads. -/
theorem platform_soc_init_returns_freq_code (I2C_MAX_MODES : Nat) (L : Loaders) (temp : Nat)
    (e_ctrl : cam_eeprom_ctrl_t) (pdev : platform_device) (of_node : device_node)
    (v1 v2 : Nat) (s : String)
    (hp : e_ctrl.soc_info.pdev = some pdev) (hn : pdev.of_node = some of_node)
    (hc : of_property_read_u32 of_node "cell-index" = .ok v1)
    (hm : of_property_read_u32 of_node "cci-master" = .ok v2)
    (hs : of_node.read_string "eeprom-name" = .ok s)
    (hu : e_ctrl.userspace_probe = false) :
    ∃ r, cam_eeprom_platform_driver_soc_init I2C_MAX_MODES L temp e_ctrl = some r ∧
      r.rc = rc_of (of_property_read_u32 of_node "i2c-freq-mode") := by
  obtain ⟨t, ht, hr⟩ := platform_soc_init_eq I2C_MAX_MODES L temp e_ctrl pdev of_node v1 v2
    hp hn hc hm
  have hut : t.e_ctrl.userspace_probe = false := by
    rw [(get_dt_data_frame L _ t ht).1, hs]
    exact hu
  refine ⟨_, hr, ?_⟩
  simp only [soc_init_addressing, hut]
  simp

theorem platform_soc_init_returns_freq_code_witness :
    ∃ r, cam_eeprom_platform_driver_soc_init 4 loaders_ok 0
        (ctrl_platform (some node_platform) (some ⟨0⟩)) = some r ∧
      r.rc = rc_of (of_property_read_u32 node_platform "i2c-freq-mode") :=
  platform_soc_init_returns_freq_code 4 loaders_ok 0
    (ctrl_platform (some node_platform) (some ⟨0⟩))
    ⟨some node_platform⟩ node_platform 2 1 "eeprom0" rfl rfl rfl rfl rfl rfl

/-- The GPIO step, case by case. -/
theorem get_dt_data_gpio_cases (L : Loaders) (e_ctrl : cam_eeprom_ctrl_t) (trace : List Event) :
    (e_ctrl.soc_info.gpio_data = none →
      (get_dt_data_gpio L e_ctrl trace).rc = 0 ∧
      (get_dt_data_gpio L e_ctrl trace).trace = trace) ∧
    (∀ g, e_ctrl.soc_info.gpio_data = some g → g.cam_gpio_common_tbl_size = 0 →
      (get_dt_data_gpio L e_ctrl trace).rc = -EINVAL ∧
      (get_dt_data_gpio L e_ctrl trace).trace = trace) ∧
    (∀ g, e_ctrl.soc_info.gpio_data = some g → g.cam_gpio_common_tbl_size ≠ 0 →
      (get_dt_data_gpio L e_ctrl trace).trace =
        trace ++ [.cam_sensor_util_init_gpio_pin_tbl] ∧
      ((L.cam_sensor_util_init_gpio_pin_tbl e_ctrl.soc_info
          e_ctrl.soc_private.power_info.gpio_num_info).1 < 0 ∨
        (L.cam_sensor_util_init_gpio_pin_tbl e_ctrl.soc_info
          e_ctrl.soc_private.power_info.gpio_num_info).2.2 = none →
        (get_dt_data_gpio L e_ctrl trace).rc = -EINVAL) ∧
      (¬ (L.cam_sensor_util_init_gpio_pin_tbl e_ctrl.soc_info
          e_ctrl.soc_private.power_info.gpio_num_info).1 < 0 →
        (L.cam_sensor_util_init_gpio_pin_tbl e_ctrl.soc_info
          e_ctrl.soc_private.power_info.gpio_num_info).2.2 ≠ none →
        (get_dt_data_gpio L e_ctrl trace).rc =
          (L.cam_sensor_util_init_gpio_pin_tbl e_ctrl.soc_info
            e_ctrl.soc_private.power_info.gpio_num_info).1)) := by
  refine ⟨?_, ?_, ?_⟩
  · intro h
    simp [get_dt_data_gpio, h]
  · intro g h hz
    simp [get_dt_data_gpio, h, hz]
  · intro g h hz
    simp only [get_dt_data_gpio, h, hz, if_false]
    refine ⟨?_, ?_, ?_⟩
    · split <;> rfl
    · intro hb
      rw [if_pos hb]
    · intro h1 h2
      rw [if_neg (by
        intro hb
        rcases hb with hb | hb
        · exact h1 hb
        · exact h2 hb)]

/-- Past the two loaders the common tail is the GPIO step on the context they left. -/
theorem get_dt_data_eq_gpio (L : Loaders) (e_ctrl : cam_eeprom_ctrl_t) (of_node : device_node)
    (hnode : get_dt_data_of_node e_ctrl = some (some of_node))
    (hgen : ¬ (L.cam_soc_util_get_dt_properties e_ctrl.soc_info).1 < 0)
    (hpow : e_ctrl.userspace_probe = false →
      ¬ (L.cam_get_dt_power_setting_data of_node
        (L.cam_soc_util_get_dt_properties e_ctrl.soc_info).2
        e_ctrl.soc_private.power_info).1 < 0) :
    cam_eeprom_get_dt_data L e_ctrl =
      some (get_dt_data_gpio L (ctrl_after_loaders L e_ctrl of_node)
        (if e_ctrl.userspace_probe = false then
          [.cam_soc_util_get_dt_properties, .cam_get_dt_power_setting_data]
        else [.cam_soc_util_get_dt_properties])) := by
  simp only [cam_eeprom_get_dt_data, hnode, get_dt_data_loaders, ctrl_after_loaders, hgen,
    if_false]
  by_cases hu : e_ctrl.userspace_probe = false
  · simp only [hu, if_true, hpow hu, if_false]
  · have hu2 : e_ctrl.userspace_probe = true := by simpa using hu
    simp [hu2]

/-- C13: in `cam_eeprom_get_dt_data`, once the node is resolved and the generic loader and
(when it runs) the power-sequence loader have returned without error: with no GPIO data the
routine returns 0 and the pin-table builder is not called; with GPIO data of table size zero it
returns `-EINVAL` and the builder is not called; otherwise the builder is called, and the
routine returns `-EINVAL` when the builder returns a negative code or leaves `gpio_num_info`
null, and the code of the builder otherwise. -/
theorem get_dt_data_gpio_table (L : Loaders) (e_ctrl : cam_eeprom_ctrl_t)
    (of_node : device_node)
    (hnode : get_dt_data_of_node e_ctrl = some (some of_node))
    (hgen : ¬ (L.cam_soc_util_get_dt_properties e_ctrl.soc_info).1 < 0)
    (hpow : e_ctrl.userspace_probe = false →
      ¬ (L.cam_get_dt_power_setting_data of_node
        (L.cam_soc_util_get_dt_properties e_ctrl.soc_info).2
        e_ctrl.soc_private.power_info).1 < 0) :
    ∃ r, cam_eeprom_get_dt_data L e_ctrl = some r ∧
      ((ctrl_after_loaders L e_ctrl of_node).soc_info.gpio_data = none →
        r.rc = 0 ∧ Event.cam_sensor_util_init_gpio_pin_tbl ∉ r.trace) ∧
      (∀ g, (ctrl_after_loaders L e_ctrl of_node).soc_info.gpio_data = some g →
        g.cam_gpio_common_tbl_size = 0 →
        r.rc = -EINVAL ∧ Event.cam_sensor_util_init_gpio_pin_tbl ∉ r.trace) ∧
      (∀ g, (ctrl_after_loaders L e_ctrl of_node).soc_info.gpio_data = some g →
        g.cam_gpio_common_tbl_size ≠ 0 →
        Event.cam_sensor_util_init_gpio_pin_tbl ∈ r.trace ∧
        ((L.cam_sensor_util_init_gpio_pin_tbl (ctrl_after_loaders L e_ctrl of_node).soc_info
            (ctrl_after_loaders L e_ctrl of_node).soc_private.power_info.gpio_num_info).1 < 0 ∨
          (L.cam_sensor_util_init_gpio_pin_tbl (ctrl_after_loaders L e_ctrl of_node).soc_info
            (ctrl_after_loaders L e_ctrl of_node).soc_private.power_info.gpio_num_info).2.2 =
            none →
          r.rc = -EINVAL) ∧
        (¬ (L.cam_sensor_util_init_gpio_pin_tbl (ctrl_after_loaders L e_ctrl of_node).soc_info
            (ctrl_after_loaders L e_ctrl of_node).soc_private.power_info.gpio_num_info).1 < 0 →
          (L.cam_sensor_util_init_gpio_pin_tbl (ctrl_after_loaders L e_ctrl of_node).soc_info
            (ctrl_after_loaders L e_ctrl of_node).soc_private.power_info.gpio_num_info).2.2 ≠
            none →
          r.rc =
            (L.cam_sensor_util_init_gpio_pin_tbl (ctrl_after_loaders L e_ctrl of_node).soc_info
              (ctrl_after_loaders L e_ctrl
                of_node).soc_private.power_info.gpio_num_info).1)) := by
  obtain ⟨c1, c2, c3⟩ := get_dt_data_gpio_cases L (ctrl_after_loaders L e_ctrl of_node)
    (if e_ctrl.userspace_probe = false then
      [.cam_soc_util_get_dt_properties, .cam_get_dt_power_setting_data]
    else [.cam_soc_util_get_dt_properties])
  have hno : Event.cam_sensor_util_init_gpio_pin_tbl ∉
      (if e_ctrl.userspace_probe = false then
        [Event.cam_soc_util_get_dt_properties, Event.cam_get_dt_power_setting_data]
      else [Event.cam_soc_util_get_dt_properties]) := by
    split <;> simp
  refine ⟨_, get_dt_data_eq_gpio L e_ctrl of_node hnode hgen hpow, ?_, ?_, ?_⟩
  · intro h
    obtain ⟨h1, h2⟩ := c1 h
    exact ⟨h1, by rw [h2]; exact hno⟩
  · intro g h hz
    obtain ⟨h1, h2⟩ := c2 g h hz
    exact ⟨h1, by rw [h2]; exact hno⟩
  · intro g h hz
    obtain ⟨h1, h2, h3⟩ := c3 g h hz
    exact ⟨by rw [h1]; simp, h2, h3⟩

theorem get_dt_data_gpio_table_witness :
    ∃ r, cam_eeprom_get_dt_data (loaders_gpio 5 none)
        (ctrl_platform (some node_platform) (some ⟨3⟩)) = some r ∧
      Event.cam_sensor_util_init_gpio_pin_tbl ∈ r.trace ∧ r.rc = -EINVAL := by
  obtain ⟨r, hr, _, _, h3⟩ := get_dt_data_gpio_table (loaders_gpio 5 none)
    (ctrl_platform (some node_platform) (some ⟨3⟩)) node_platform rfl (by decide)
    (fun _ => by decide)
  obtain ⟨h4, h5, _⟩ := h3 ⟨3⟩ rfl (by decide)
  exact ⟨r, hr, h4, h5 (Or.inr rfl)⟩

/-- The GPIO step writes only `soc_info` and the power configuration. -/
theorem get_dt_data_gpio_writes (L : Loaders) (e_ctrl : cam_eeprom_ctrl_t)
    (trace : List Event) :
    (get_dt_data_gpio L e_ctrl trace).e_ctrl =
      { e_ctrl with
        soc_info := (get_dt_data_gpio L e_ctrl trace).e_ctrl.soc_info
        soc_private := { e_ctrl.soc_private with
          power_info := (get_dt_data_gpio L e_ctrl trace).e_ctrl.soc_private.power_info } } := by
  unfold get_dt_data_gpio
  split
  · rfl
  · split
    · rfl
    · dsimp only
      split <;> rfl

/-- The loaders write only `soc_info` and the power configuration. -/
theorem get_dt_data_loaders_writes (L : Loaders) (e_ctrl : cam_eeprom_ctrl_t)
    (of_node : device_node) :
    (get_dt_data_loaders L e_ctrl of_node).e_ctrl =
      { e_ctrl with
        soc_info := (get_dt_data_loaders L e_ctrl of_node).e_ctrl.soc_info
        soc_private := { e_ctrl.soc_private with
          power_info :=
            (get_dt_data_loaders L e_ctrl of_node).e_ctrl.soc_private.power_info } } := by
  unfold get_dt_data_loaders
  dsimp only
  split
  · rfl
  · split
    · split
      · rfl
      · rw [get_dt_data_gpio_writes]
    · rw [get_dt_data_gpio_writes]

/-- The common tail writes only `soc_info` and the power configuration. -/
theorem get_dt_data_writes (L : Loaders) (e_ctrl : cam_eeprom_ctrl_t) (r : ProbeResult)
    (h : cam_eeprom_get_dt_data L e_ctrl = some r) :
    r.e_ctrl =
      { e_ctrl with
        soc_info := r.e_ctrl.soc_info
        soc_private := { e_ctrl.soc_private with
          power_info := r.e_ctrl.soc_private.power_info } } := by
  unfold cam_eeprom_get_dt_data at h
  split at h
  · exact absurd h (by simp)
  · simp only [Option.some.injEq] at h
    subst h
    rfl
  · simp only [Option.some.injEq] at h
    subst h
    exact get_dt_data_loaders_writes L e_ctrl _

/-- For an SPI device the common tail returns. -/
theorem get_dt_data_of_spi (L : Loaders) (e_ctrl : cam_eeprom_ctrl_t)
    (h : e_ctrl.eeprom_device_type = .MSM_CAMERA_SPI_DEVICE) :
    ∃ r, cam_eeprom_get_dt_data L e_ctrl = some r := by
  unfold cam_eeprom_get_dt_data get_dt_data_of_node
  simp only [h]
  cases e_ctrl.spi_master_of_node <;> simp

/-- The metadata `cam_eeprom_cmm_dts` leaves depends on the private data only through the
metadata it holds, and the routine writes nothing else. -/
theorem cmm_dts_writes (eb_info : cam_eeprom_soc_private) (of_node : device_node) :
    (cam_eeprom_cmm_dts eb_info of_node).eb_info =
      { eb_info with cmm_data := (cam_eeprom_cmm_dts eb_info of_node).eb_info.cmm_data } ∧
    (∀ name, (cam_eeprom_cmm_dts { eb_info with eeprom_name := name } of_node).eb_info.cmm_data =
      (cam_eeprom_cmm_dts eb_info of_node).eb_info.cmm_data) ∧
    (∀ ev, ev ∈ (cam_eeprom_cmm_dts eb_info of_node).trace → loader_event ev = false) ∧
    Event.of_property_read_string "eeprom-name" ∉ (cam_eeprom_cmm_dts eb_info of_node).trace := by
  unfold cam_eeprom_cmm_dts
  dsimp only
  split
  · simp [loader_event]
  · simp [loader_event]

/-- The calls of `cam_eeprom_cmm_dts` depend on the node alone. -/
theorem cmm_dts_trace (eb_info other : cam_eeprom_soc_private) (of_node : device_node) :
    (cam_eeprom_cmm_dts eb_info of_node).trace = (cam_eeprom_cmm_dts other of_node).trace := by
  unfold cam_eeprom_cmm_dts
  dsimp only
  split <;> rfl

/-- An SPI probe that reads `cell-index` is the common tail on the context prepared for it. -/
theorem spi_soc_init_eq (L : Loaders) (e_ctrl : cam_eeprom_ctrl_t) (v : Nat)
    (hc : of_property_read_u32 e_ctrl.spi_of_node "cell-index" = .ok v) :
    cam_eeprom_spi_driver_soc_init L e_ctrl =
      (cam_eeprom_get_dt_data L (spi_ctrl_before_tail e_ctrl v)).map fun t =>
        ⟨t.rc, t.e_ctrl,
          [.of_property_read_u32 "cell-index", .of_property_read_string "eeprom-name"] ++
            (cam_eeprom_cmm_dts e_ctrl.soc_private (node_of e_ctrl.spi_master_of_node)).trace ++
            t.trace⟩ := by
  unfold cam_eeprom_spi_driver_soc_init spi_ctrl_before_tail
  simp only [hc]
  cases hs : e_ctrl.spi_of_node.read_string "eeprom-name" <;>
    dsimp only <;>
    rw [cmm_dts_trace _ e_ctrl.soc_private] <;>
    cases cam_eeprom_get_dt_data L _ <;> rfl

/-- C15: for `cam_eeprom_spi_driver_soc_init`, an unreadable `cell-index` gives the negative
code of that read, the context untouched and no other call.  With `cell-index` readable, the code
returned is that of the common tail run on the prepared context; for an SPI device the tail
returns, the probe returns its code and its context, the manufacturing metadata is the one
`cam_eeprom_cmm_dts` parses from the node of the bus master, and an unreadable `eeprom-name`
leaves `userspace_probe` set. -/
theorem spi_soc_init_contract (L : Loaders) (e_ctrl : cam_eeprom_ctrl_t) :
    (∀ e, of_property_read_u32 e_ctrl.spi_of_node "cell-index" = .error e →
      e.val < 0 ∧
      cam_eeprom_spi_driver_soc_init L e_ctrl =
        some ⟨e.val, e_ctrl, [.of_property_read_u32 "cell-index"]⟩) ∧
    (∀ v, of_property_read_u32 e_ctrl.spi_of_node "cell-index" = .ok v →
      rc? (cam_eeprom_spi_driver_soc_init L e_ctrl) =
        rc? (cam_eeprom_get_dt_data L (spi_ctrl_before_tail e_ctrl v)) ∧
      (e_ctrl.eeprom_device_type = .MSM_CAMERA_SPI_DEVICE →
        ∃ t r, cam_eeprom_get_dt_data L (spi_ctrl_before_tail e_ctrl v) = some t ∧
          cam_eeprom_spi_driver_soc_init L e_ctrl = some r ∧
          r.rc = t.rc ∧ r.e_ctrl = t.e_ctrl ∧
          r.e_ctrl.soc_private.cmm_data =
            (cam_eeprom_cmm_dts e_ctrl.soc_private
              (node_of e_ctrl.spi_master_of_node)).eb_info.cmm_data ∧
          ((∃ err, e_ctrl.spi_of_node.read_string "eeprom-name" = .error err) →
            r.e_ctrl.userspace_probe = true))) := by
  constructor
  · intro e he
    exact ⟨e.property, by simp only [cam_eeprom_spi_driver_soc_init, he]⟩
  · intro v hv
    have heq := spi_soc_init_eq L e_ctrl v hv
    constructor
    · rw [heq]
      unfold rc?
      cases cam_eeprom_get_dt_data L (spi_ctrl_before_tail e_ctrl v) <;> rfl
    · intro hdev
      obtain ⟨t, ht⟩ := get_dt_data_of_spi L (spi_ctrl_before_tail e_ctrl v) (by
        unfold spi_ctrl_before_tail
        cases e_ctrl.spi_of_node.read_string "eeprom-name" <;> exact hdev)
      have hw := get_dt_data_writes L _ t ht
      rw [ht] at heq
      refine ⟨t, _, ht, heq, rfl, rfl, ?_, ?_⟩
      · show t.e_ctrl.soc_private.cmm_data = _
        rw [hw]
        unfold spi_ctrl_before_tail
        cases e_ctrl.spi_of_node.read_string "eeprom-name"
        · rfl
        · exact (cmm_dts_writes e_ctrl.soc_private _).2.1 _
      · rintro ⟨err, herr⟩
        show t.e_ctrl.userspace_probe = true
        rw [hw]
        unfold spi_ctrl_before_tail
        rw [herr]

theorem spi_soc_init_contract_witness :
    rc? (cam_eeprom_spi_driver_soc_init loaders_ok
        (ctrl_spi node_spi_no_name (some node_cmm_full))) =
      rc? (cam_eeprom_get_dt_data loaders_ok
        (spi_ctrl_before_tail (ctrl_spi node_spi_no_name (some node_cmm_full)) 3)) ∧
    ∃ t r, cam_eeprom_get_dt_data loaders_ok
        (spi_ctrl_before_tail (ctrl_spi node_spi_no_name (some node_cmm_full)) 3) = some t ∧
      cam_eeprom_spi_driver_soc_init loaders_ok
        (ctrl_spi node_spi_no_name (some node_cmm_full)) = some r ∧
      r.rc = t.rc ∧ r.e_ctrl = t.e_ctrl ∧
      r.e_ctrl.soc_private.cmm_data =
        (cam_eeprom_cmm_dts (ctrl_spi node_spi_no_name (some node_cmm_full)).soc_private
          (node_of (some node_cmm_full))).eb_info.cmm_data ∧
      ((∃ err, node_spi_no_name.read_string "eeprom-name" = .error err) →
        r.e_ctrl.userspace_probe = true) :=
  ⟨((spi_soc_init_contract loaders_ok
      (ctrl_spi node_spi_no_name (some node_cmm_full))).2 3 rfl).1,
    ((spi_soc_init_contract loaders_ok
      (ctrl_spi node_spi_no_name (some node_cmm_full))).2 3 rfl).2 rfl⟩

/-- The addressing step changes `userspace_probe` never, and nothing at all when the probe is
left to user space. -/
theorem soc_init_addressing_frame (I2C_MAX_MODES : Nat) (of_node : device_node) (temp : Nat)
    (rc : Int) (e_ctrl : cam_eeprom_ctrl_t) (trace : List Event) :
    (soc_init_addressing I2C_MAX_MODES of_node temp rc e_ctrl trace).e_ctrl.userspace_probe =
      e_ctrl.userspace_probe ∧
    (∀ ev, loader_event ev = true →
      (ev ∈ (soc_init_addressing I2C_MAX_MODES of_node temp rc e_ctrl trace).trace ↔
        ev ∈ trace)) ∧
    (Event.of_property_read_string "eeprom-name" ∈
        (soc_init_addressing I2C_MAX_MODES of_node temp rc e_ctrl trace).trace ↔
      Event.of_property_read_string "eeprom-name" ∈ trace) ∧
    (e_ctrl.userspace_probe = true →
      soc_init_addressing I2C_MAX_MODES of_node temp rc e_ctrl trace = ⟨rc, e_ctrl, trace⟩) := by
  unfold soc_init_addressing
  split
  · rename_i hu
    refine ⟨rfl, ?_, ?_, ?_⟩
    · intro ev hev
      cases ev <;> simp [loader_event] at hev ⊢
    · simp
    · intro h
      rw [h] at hu
      exact absurd hu (by simp)
  · exact ⟨rfl, fun _ _ => Iff.rfl, Iff.rfl, fun _ => rfl⟩

/-- C19: neither probe entry clears `userspace_probe`.  Whenever the SPI entry returns, and
it does for an SPI device: if `userspace_probe` was set on entry it is set on return and the
power-sequence loader was not called; and `userspace_probe` is set on return exactly when it
was set on entry or `eeprom-name` was read and found unreadable.  The platform entry always
returns, with the same two properties, and when `userspace_probe` was set on entry the
addressing is as on entry and neither `slave-addr` nor `i2c-freq-mode` was read. -/
theorem soc_init_userspace_probe_sticky (I2C_MAX_MODES : Nat) (L : Loaders) (temp : Nat)
    (e_ctrl : cam_eeprom_ctrl_t) :
    (∀ r, cam_eeprom_spi_driver_soc_init L e_ctrl = some r →
      (e_ctrl.userspace_probe = true →
        r.e_ctrl.userspace_probe = true ∧
        Event.cam_get_dt_power_setting_data ∉ r.trace) ∧
      (r.e_ctrl.userspace_probe = true ↔
        e_ctrl.userspace_probe = true ∨
          (Event.of_property_read_string "eeprom-name" ∈ r.trace ∧
            ∃ err, e_ctrl.spi_of_node.read_string "eeprom-name" = .error err))) ∧
    (e_ctrl.eeprom_device_type = .MSM_CAMERA_SPI_DEVICE →
      ∃ r, cam_eeprom_spi_driver_soc_init L e_ctrl = some r) ∧
    (∃ r, cam_eeprom_platform_driver_soc_init I2C_MAX_MODES L temp e_ctrl = some r ∧
      (e_ctrl.userspace_probe = true →
        r.e_ctrl.userspace_probe = true ∧
        Event.cam_get_dt_power_setting_data ∉ r.trace ∧
        r.e_ctrl.soc_private.i2c_info = e_ctrl.soc_private.i2c_info ∧
        Event.of_property_read_u32 "slave-addr" ∉ r.trace ∧
        Event.of_property_read_u32 "i2c-freq-mode" ∉ r.trace) ∧
      (r.e_ctrl.userspace_probe = true ↔
        e_ctrl.userspace_probe = true ∨
          (Event.of_property_read_string "eeprom-name" ∈ r.trace ∧
            ∃ node err, platform_of_node e_ctrl = some node ∧
              node.read_string "eeprom-name" = .error err))) := by
  refine ⟨?_, ?_, ?_⟩
  · -- the SPI entry
    intro r hr
    cases hc : of_property_read_u32 e_ctrl.spi_of_node "cell-index" with
    | error e =>
      simp only [cam_eeprom_spi_driver_soc_init, hc, Option.some.injEq] at hr
      subst hr
      simp
    | ok v =>
      rw [spi_soc_init_eq L e_ctrl v hc] at hr
      cases ht : cam_eeprom_get_dt_data L (spi_ctrl_before_tail e_ctrl v) with
      | none => simp [ht] at hr
      | some t =>
        simp only [ht, Option.map_some', Option.some.injEq] at hr
        subst hr
        obtain ⟨hu, _, hev, hpow⟩ := get_dt_data_frame L _ t ht
        obtain ⟨_, _, hcmm, _⟩ := cmm_dts_writes e_ctrl.soc_private
          (node_of e_ctrl.spi_master_of_node)
        have hub : (spi_ctrl_before_tail e_ctrl v).userspace_probe = true ↔
            e_ctrl.userspace_probe = true ∨
              ∃ err, e_ctrl.spi_of_node.read_string "eeprom-name" = .error err := by
          unfold spi_ctrl_before_tail
          cases e_ctrl.spi_of_node.read_string "eeprom-name" <;> simp
        constructor
        · intro h
          have hb : (spi_ctrl_before_tail e_ctrl v).userspace_probe = true :=
            hub.2 (Or.inl h)
          refine ⟨by rw [hu]; exact hb, ?_⟩
          simp only [List.mem_append, List.mem_cons, List.mem_singleton, not_or]
          refine ⟨⟨⟨by simp, by simp, by simp⟩, ?_⟩, hpow hb⟩
          intro hmem
          simpa [loader_event] using hcmm _ hmem
        · rw [hu, hub]
          simp
  · -- the SPI entry returns for an SPI device
    intro hdev
    cases hc : of_property_read_u32 e_ctrl.spi_of_node "cell-index" with
    | error e =>
      exact ⟨⟨e.val, e_ctrl, [.of_property_read_u32 "cell-index"]⟩,
        by simp only [cam_eeprom_spi_driver_soc_init, hc]⟩
    | ok v =>
      obtain ⟨t, ht⟩ := get_dt_data_of_spi L (spi_ctrl_before_tail e_ctrl v) (by
        unfold spi_ctrl_before_tail
        cases e_ctrl.spi_of_node.read_string "eeprom-name" <;> exact hdev)
      rw [spi_soc_init_eq L e_ctrl v hc, ht]
      exact ⟨_, rfl⟩
  · -- the platform entry
    cases hp : e_ctrl.soc_info.pdev with
    | none =>
      refine ⟨⟨-EINVAL, e_ctrl, []⟩,
        by simp only [cam_eeprom_platform_driver_soc_init, hp], ?_, ?_⟩ <;> simp
    | some pdev =>
      cases hn : pdev.of_node with
      | none =>
        refine ⟨⟨-EINVAL, e_ctrl, []⟩,
          by simp only [cam_eeprom_platform_driver_soc_init, hp, hn], ?_, ?_⟩ <;> simp
      | some of_node =>
        cases hc : of_property_read_u32 of_node "cell-index" with
        | error e =>
          refine ⟨⟨e.val, e_ctrl, [.of_property_read_u32 "cell-index"]⟩,
            by simp only [cam_eeprom_platform_driver_soc_init, hp, hn, hc], ?_, ?_⟩ <;> simp
        | ok v1 =>
          cases hm : of_property_read_u32 of_node "cci-master" with
          | error e =>
            refine ⟨⟨e.val, { e_ctrl with subdev_id := v1 },
                [.of_property_read_u32 "cell-index", .of_property_read_u32 "cci-master"]⟩,
              by simp only [cam_eeprom_platform_driver_soc_init, hp, hn, hc, hm], ?_, ?_⟩ <;>
              simp
          | ok v2 =>
            obtain ⟨t, ht, hr⟩ := platform_soc_init_eq I2C_MAX_MODES L temp e_ctrl pdev of_node
              v1 v2 hp hn hc hm
            obtain ⟨hu, hi2c, hev, hpow⟩ := get_dt_data_frame L _ t ht
            obtain ⟨a1, a2, a3, a4⟩ := soc_init_addressing_frame I2C_MAX_MODES of_node temp
              t.rc t.e_ctrl ([.of_property_read_u32 "cell-index",
                .of_property_read_u32 "cci-master",
                .of_property_read_string "eeprom-name"] ++ t.trace)
            have hub : (ctrl_before_tail e_ctrl v1 v2
                (of_node.read_string "eeprom-name")).userspace_probe = true ↔
                e_ctrl.userspace_probe = true ∨
                  ∃ err, of_node.read_string "eeprom-name" = .error err := by
              unfold ctrl_before_tail
              cases of_node.read_string "eeprom-name" <;> simp
            have hib : (ctrl_before_tail e_ctrl v1 v2
                (of_node.read_string "eeprom-name")).soc_private.i2c_info =
                e_ctrl.soc_private.i2c_info := by
              unfold ctrl_before_tail
              cases of_node.read_string "eeprom-name" <;> rfl
            have hpn : platform_of_node e_ctrl = some of_node := by
              unfold platform_of_node
              rw [hp]
              exact hn
            have hno : ∀ name, Event.of_property_read_u32 name ∉ t.trace :=
              fun name hmem => by simpa [loader_event] using hev _ hmem
            refine ⟨_, hr, ?_, ?_⟩
            · intro h
              have hb := hub.2 (Or.inl h)
              have htu : t.e_ctrl.userspace_probe = true := by rw [hu]; exact hb
              rw [a4 htu]
              refine ⟨htu, ?_, by rw [hi2c, hib], ?_, ?_⟩
              · simpa using hpow hb
              · simpa using hno _
              · simpa using hno _
            · rw [a1, hu, hub, a3, hpn]
              simp

theorem soc_init_userspace_probe_sticky_witness :
    (∃ r, cam_eeprom_spi_driver_soc_init loaders_ok
      { ctrl_spi node_spi (some node_cmm_full) with userspace_probe := true } = some r ∧
      r.e_ctrl.userspace_probe = true ∧ Event.cam_get_dt_power_setting_data ∉ r.trace) ∧
    (∃ r, cam_eeprom_platform_driver_soc_init 4 loaders_ok 0
        { ctrl_platform (some node_platform) none with userspace_probe := true } = some r ∧
      r.e_ctrl.userspace_probe = true ∧
      Event.cam_get_dt_power_setting_data ∉ r.trace ∧
      r.e_ctrl.soc_private.i2c_info = ⟨0, 0⟩ ∧
      Event.of_property_read_u32 "slave-addr" ∉ r.trace ∧
      Event.of_property_read_u32 "i2c-freq-mode" ∉ r.trace) := by
  obtain ⟨hspi, htot, r2, hr2, h2, _⟩ := soc_init_userspace_probe_sticky 4 loaders_ok 0
    { ctrl_platform (some node_platform) none with userspace_probe := true }
  obtain ⟨hspi1, htot1, _⟩ := soc_init_userspace_probe_sticky 4 loaders_ok 0
    { ctrl_spi node_spi (some node_cmm_full) with userspace_probe := true }
  obtain ⟨r1, hr1⟩ := htot1 rfl
  exact ⟨⟨r1, hr1, (hspi1 r1 hr1).1 rfl⟩, ⟨r2, hr2, h2 rfl⟩⟩

end CamEeprom
